import Mathlib

/-!
Shallow embedding of the build-request rendering engine of osbs-client
(`osbs/build/build_request.py`), together with models of its collaborators
that the repository references but whose sources are not available here
(`osbs/build/manipulate.py`, `osbs/build/spec.py`, `osbs/constants.py`);
those models are marked `Modelled from the spec:` and follow the
specification's description of the components.

Outer descriptors, pipeline descriptors and parameter records are explicit
Lean structures; render functions are written in the `Except` monad so that
the Python exceptions raised by rendering (`IndexError`, `RuntimeError`
from the manipulator, `OsbsValidationException`, `ValueError`) become
explicit error values.
-/

namespace Osbs

/-- Association-list lookup, mirroring Python `d[k]` / `d.get(k)`. -/
def alGet {α : Type} (m : List (String × α)) (k : String) : Option α :=
  (m.find? (fun p => p.1 = k)).map (fun p => p.2)

/-- Association-list membership, mirroring Python `k in d`. -/
def alHas {α : Type} (m : List (String × α)) (k : String) : Bool :=
  m.any (fun p => p.1 = k)

/-- Association-list assignment, mirroring Python `d[k] = v`: overwrite an
existing binding in place, otherwise append a new one. -/
def alSet {α : Type} (m : List (String × α)) (k : String) (v : α) :
    List (String × α) :=
  if m.any (fun p => p.1 = k) then
    m.map (fun p => if p.1 = k then (k, v) else p)
  else
    m ++ [(k, v)]

/-- Python list comparison `a < b` on lists of numbers: lexicographic with
a strict prefix counting as smaller. -/
def pyListLt : List Nat → List Nat → Bool
  | [], [] => false
  | [], _ :: _ => true
  | _ :: _, [] => false
  | a :: as, b :: bs => if a < b then true else if b < a then false else pyListLt as bs

/-- Python truthiness of an optional string (`if value:`): `None` and the
empty string are falsy. -/
def optTruthy : Option String → Bool
  | none => false
  | some s => s ≠ ""

/-- Python truthiness of an optional list (`if value:`): `None` and the
empty list are falsy. -/
def listTruthy : Option (List String) → Bool
  | none => false
  | some l => l ≠ []

/-- Argument value stored in a pipeline stage's argument mapping
(a JSON-compatible value; the shapes the renderer actually writes). -/
inductive ArgVal where
  | str (s : String)
  | strList (l : List String)
  | map (m : List (String × String))
  | bool (b : Bool)
deriving DecidableEq, Repr

/-- One pipeline stage (a plugin): a name plus an optional argument
mapping, as in the inner-template JSON `{"name": ..., "args": {...}}`
where the `args` key may be absent. -/
structure Plugin where
  name : String
  args : Option (List (String × ArgVal))
deriving DecidableEq, Repr

/-- The inner pipeline descriptor (the dock json): stage groups keyed by
name (`prebuild_plugins`, `postbuild_plugins`, `exit_plugins`), each an
ordered list of stages. A group key may be absent. -/
def DockJson : Type := List (String × List Plugin)

instance : DecidableEq DockJson := by
  unfold DockJson; infer_instance

instance {ε α : Type} [DecidableEq ε] [DecidableEq α] : DecidableEq (Except ε α) :=
  fun a b =>
    match a, b with
    | .ok x, .ok y =>
        if h : x = y then .isTrue (by rw [h])
        else .isFalse (by intro hc; cases hc; exact h rfl)
    | .error x, .error y =>
        if h : x = y then .isTrue (by rw [h])
        else .isFalse (by intro hc; cases hc; exact h rfl)
    | .ok _, .error _ => .isFalse (by intro hc; cases hc)
    | .error _, .ok _ => .isFalse (by intro hc; cases hc)

instance : Repr DockJson := by
  unfold DockJson; infer_instance

/-- Errors surfaced by rendering: `stageNotFound` is the manipulator's
`RuntimeError` for a missing stage, `indexError` is Python's `IndexError`,
`validation` is `OsbsValidationException`, `valueError` is `ValueError`. -/
inductive RErr where
  | stageNotFound (grp name : String)
  | indexError
  | validation (msg : String)
  | valueError (msg : String)
deriving DecidableEq, Repr

/-- Modelled from the spec: `DockJsonManipulator.dock_json_has_plugin_conf`
(osbs/build/manipulate.py is not under src/); §4.2 `has_stage(group, name)`:
true iff the group exists and holds a stage of that name. -/
def hasPluginConf (dj : DockJson) (grp name : String) : Bool :=
  ((alGet dj grp).getD []).any (fun p => p.name = name)

/-- Modelled from the spec: `DockJsonManipulator.dock_json_get_plugin_conf`;
§4.2 `get_stage_config(group, name)`: the stage's configuration, failing
with the stage-not-found error if absent. -/
def getPluginConf (dj : DockJson) (grp name : String) : Except RErr Plugin :=
  match ((alGet dj grp).getD []).find? (fun p => p.name = name) with
  | some p => .ok p
  | none => .error (.stageNotFound grp name)

/-- Map a function over the plugins of one group, leaving other groups and
absent groups untouched. -/
def mapGroup (dj : DockJson) (grp : String) (f : List Plugin → List Plugin) :
    DockJson :=
  dj.map (fun e => if e.1 = grp then (e.1, f e.2) else e)

/-- Modelled from the spec: `DockJsonManipulator.dock_json_set_arg`;
§4.2 `set_argument(group, name, key, value)`: sets `arguments[key] = value`
on the named stage, creating the arguments mapping if missing, and fails
with the stage-not-found error if the stage is absent. -/
def setArg (dj : DockJson) (grp name key : String) (v : ArgVal) :
    Except RErr DockJson :=
  if hasPluginConf dj grp name then
    .ok (mapGroup dj grp (fun ps => ps.map (fun p =>
      if p.name = name then { p with args := some (alSet (p.args.getD []) key v) }
      else p)))
  else
    .error (.stageNotFound grp name)

/-- Modelled from the spec: `DockJsonManipulator.dock_json_merge_arg`;
§4.2 `merge_argument(group, name, key, partial_mapping)`: if the argument
exists and is a mapping, shallow-merge (new keys overwrite/extend, others
preserved); otherwise set it directly; stage-not-found error if absent. -/
def mergeArg (dj : DockJson) (grp name key : String)
    (part : List (String × String)) : Except RErr DockJson :=
  if hasPluginConf dj grp name then
    .ok (mapGroup dj grp (fun ps => ps.map (fun p =>
      if p.name = name then
        let old := p.args.getD []
        let merged :=
          match alGet old key with
          | some (.map m) => part.foldl (fun acc kv => alSet acc kv.1 kv.2) m
          | _ => part
        { p with args := some (alSet old key (.map merged)) }
      else p)))
  else
    .error (.stageNotFound grp name)

/-- Modelled from the spec: `DockJsonManipulator.remove_plugin`;
§4.2 `remove_stage(group, name)`: deletes the stage if present, no-op
(not an error) if absent. -/
def removePlugin (dj : DockJson) (grp name : String) : DockJson :=
  mapGroup dj grp (fun ps => ps.filter (fun p => p.name ≠ name))

/-- Read one argument of one stage (the observation the repository's tests
perform with `plugin_value_get`). -/
def pluginArg (dj : DockJson) (grp name key : String) : Option ArgVal :=
  match ((alGet dj grp).getD []).find? (fun p => p.name = name) with
  | some p => alGet (p.args.getD []) key
  | none => none

/-- One entry of the outer descriptor's `spec.triggers` array: its `type`,
`imageChange.from.kind` and `imageChange.from.name` fields. -/
structure Trigger where
  type : String
  imageChangeFromKind : String
  imageChangeFromName : String
deriving DecidableEq, Repr

/-- One entry of `spec.strategy.customStrategy.secrets`:
`{secretSource: {name: ...}, mountPath: ...}`. -/
structure SecretMount where
  secretSourceName : String
  mountPath : String
deriving DecidableEq, Repr

/-- The outer orchestration descriptor, restricted to the fixed paths the
renderer reads and writes (spec §3 OuterDescriptor).
`sourceSecret = some x` models presence of the `spec.source.sourceSecret`
object, with `x` its optional `name` field; `strategySecrets = some l`
models presence of the `spec.strategy.customStrategy.secrets` array. -/
structure OuterTemplate where
  metadataName : String
  triggers : Option (List Trigger)
  sourceGitUri : String
  sourceGitRef : String
  sourceSecret : Option (Option String)
  strategySecrets : Option (List SecretMount)
  outputToName : String
  resourcesLimits : Option (List (String × String))
deriving DecidableEq, Repr

/-- Modelled from the spec: parameters of `CommonSpec`
(osbs/build/spec.py is not under src/); each field is the `.value` the
renderer reads, optional where the renderer tests for `None`. -/
structure CommonParams where
  name : String
  gitUri : String
  gitRef : String
  registryUri : String
  imageTag : String
  openshiftUri : String
  yumRepourls : Option (List String)
  useAuth : Option Bool
  triggerImagestreamtag : String
deriving DecidableEq, Repr

/-- Modelled from the spec: parameters of `ProdSpec`, extending the common
ones with the production-only values the renderer reads. -/
structure ProdParams extends CommonParams where
  sourcesCommand : String
  architecture : String
  vendor : String
  buildHost : String
  authoritativeRegistry : String
  kojiTarget : Option String
  kojiroot : Option String
  kojihub : Option String
  gitBranch : String
  gitPushUrl : Option String
  gitPushUsername : Option String
  pulpSecret : Option String
  pdcSecret : Option String
  pulpRegistry : Option String
  nfsServerPath : Option String
  nfsDestDir : Option String
  imagestreamName : String
  imagestreamUrl : String
deriving DecidableEq, Repr

/-- Modelled from the spec: `SECRETS_PATH` from osbs/constants.py (not
under src/), the fixed secrets root directory under which named secrets
are mounted. -/
def SECRETS_PATH : String := "/var/run/secrets/atomic-reactor"

/-- Python `os.path.join(root, s)` for one component: an absolute second
component replaces the first. -/
def pyPathJoin (root s : String) : String :=
  if s.take 1 = "/" then s else root ++ "/" ++ s

/-- Split a character list at the first occurrence of `://`: the characters
before it and the characters after it. -/
def splitScheme : List Char → Option (List Char × List Char)
  | [] => none
  | c :: rest =>
    if c = ':' ∧ rest.take 2 = ['/', '/'] then some ([], rest.drop 2)
    else (splitScheme rest).map (fun p => (c :: p.1, p.2))

/-- Character allowed inside a network-location component: anything up to
the first `/`, `?` or `#`. -/
def netlocChar (c : Char) : Bool :=
  c ≠ '/' && c ≠ '?' && c ≠ '#'

/-- Model of Python `urlparse.urlsplit` restricted to the components the
renderer uses: scheme, network location, and the rest of the URL (path,
query and fragment together, since the renderer reassembles them
unchanged); a URL with no `://` has empty scheme and network location. -/
def pyUrlsplit (url : String) : String × String × String :=
  match splitScheme url.data with
  | some (s, r) => (⟨s⟩, ⟨r.takeWhile netlocChar⟩, ⟨r.dropWhile netlocChar⟩)
  | none => ("", "", url)

/-- Python `s.split('@', 1)[-1]`: everything after the first `@`, or the
whole string when there is none. -/
def pyAfterAt (s : String) : String :=
  match s.data.dropWhile (fun c => c ≠ '@') with
  | [] => s
  | _ :: rest => ⟨rest⟩

/-- Model of Python `urlparse.urlunsplit` for a non-empty network-location
component, as produced by the push-URL rewrite (the rewritten location
always contains `@`). -/
def pyUrlunsplit (scheme netloc rest : String) : String :=
  (if scheme ≠ "" then scheme ++ "://" else "//") ++ netloc ++ rest

/-- The push-URL rewrite of `ProductionBuild.render` (lines 362-374):
split the URL, drop any existing userinfo from the network location,
prefix the configured username followed by `@`, and reassemble. -/
def rewritePushUrl (username pushUrl : String) : String :=
  let parts := pyUrlsplit pushUrl
  pyUrlunsplit parts.1 (username ++ "@" ++ pyAfterAt parts.2.1) parts.2.2

/-- The exit-preferred, post-build-fallback argument write shared by the
render functions: try `exit_plugins`, and exactly on the manipulator's
stage-not-found failure (its `RuntimeError`) retry `postbuild_plugins`;
any other failure propagates. -/
def trySetArgFallback (dj : DockJson) (name key : String) (v : ArgVal) :
    Except RErr DockJson :=
  match setArg dj "exit_plugins" name key v with
  | .ok dj' => .ok dj'
  | .error (.stageNotFound _ _) => setArg dj "postbuild_plugins" name key v
  | .error e => .error e

/-- The resource-limits merge of `CommonBuild.render` (lines 180-185):
with no overlay the limits are untouched; with an overlay its entries are
merged into the existing limits mapping. -/
def applyResourceLimits (rl : Option (List (String × String)))
    (cur : Option (List (String × String))) : Option (List (String × String)) :=
  match rl with
  | none => cur
  | some l =>
    some (l.foldl (fun acc (kv : String × String) => alSet acc kv.1 kv.2) (cur.getD []))

/-- The unconditional outer-descriptor updates of `CommonBuild.render`
(lines 178-191): metadata name, resource limits, git uri and ref, and the
output name `registry/image_tag`. -/
def baseOuterUpdate (resourceLimits : Option (List (String × String)))
    (p : CommonParams) (t : OuterTemplate) : OuterTemplate :=
  { t with
    metadataName := p.name
    resourcesLimits := applyResourceLimits resourceLimits t.resourcesLimits
    sourceGitUri := p.gitUri
    sourceGitRef := p.gitRef
    outputToName := p.registryUri ++ "/" ++ p.imageTag }

/-- The trigger stamping of `CommonBuild.render` (lines 192-194): when the
`triggers` key is present, write the image-stream-tag name into the first
trigger; indexing `[0]` of an empty triggers list raises `IndexError`. -/
def triggerStamp (tag : String) (t : OuterTemplate) : Except RErr OuterTemplate :=
  match t.triggers with
  | none => .ok t
  | some [] => .error RErr.indexError
  | some (tr :: rest) =>
    let tr' := { tr with imageChangeFromName := tag }
    .ok { t with triggers := some (tr' :: rest) }

/-- The repo-injection step of `CommonBuild.render` (lines 196-199). -/
def yumRepoStep (p : CommonParams) (dj : DockJson) : Except RErr DockJson :=
  if p.yumRepourls.isSome &&
      hasPluginConf dj "prebuild_plugins" "add_yum_repo_by_url" then
    setArg dj "prebuild_plugins" "add_yum_repo_by_url" "repourls"
      (.strList (p.yumRepourls.getD []))
  else .ok dj

/-- The rebuild-detection step of `CommonBuild.render` (lines 201-206). -/
def rebuildStep (p : CommonParams) (dj : DockJson) : Except RErr DockJson :=
  if hasPluginConf dj "prebuild_plugins" "check_and_set_rebuild" then do
    let dj ← setArg dj "prebuild_plugins" "check_and_set_rebuild" "url"
      (.str p.openshiftUri)
    match p.useAuth with
    | some b => setArg dj "prebuild_plugins" "check_and_set_rebuild" "use_auth" (.bool b)
    | none => .ok dj
  else .ok dj

/-- The use-auth flag on the metadata-reporting stage (lines 208-215),
with the exit-preferred, post-build-fallback rule. -/
def useAuthStep (p : CommonParams) (dj : DockJson) : Except RErr DockJson :=
  match p.useAuth with
  | some b => trySetArgFallback dj "store_metadata_in_osv3" "use_auth" (.bool b)
  | none => .ok dj

/-- The version-gated deletion of secret substructures (lines 217-224):
below `[1,0,6]` the secrets array is deleted, at or above it the legacy
`sourceSecret` field is deleted; evaluated on every render. -/
def versionSecretsPrune (osVersion : List Nat) (t : OuterTemplate) : OuterTemplate :=
  if pyListLt osVersion [1, 0, 6] then
    { t with strategySecrets := none }
  else
    { t with sourceSecret := none }

/-- `CommonBuild.render` (build_request.py lines 176-224): stamp the name,
merge resource limits, set git uri/ref and the output name, stamp the
first trigger's image-stream tag when a `triggers` key is present
(an empty triggers list raises `IndexError` at the `[0]` index), configure
the repo-injection and rebuild-detection stages, set the use-auth flag on
the metadata-reporting stage with the exit/post-build fallback, and apply
the version-gated deletion of one of the two secret substructures. -/
def commonRender (osVersion : List Nat)
    (resourceLimits : Option (List (String × String)))
    (p : CommonParams) (t : OuterTemplate) (dj : DockJson) :
    Except RErr (OuterTemplate × DockJson) := do
  let t := baseOuterUpdate resourceLimits p t
  let t ← triggerStamp p.triggerImagestreamtag t
  let dj ← yumRepoStep p dj
  let dj ← rebuildStep p dj
  let dj ← useAuthStep p dj
  .ok (versionSecretsPrune osVersion t, dj)

/-- A key of the secrets mapping passed to `ProductionBuild.set_secrets`:
either a Python tuple (of any arity, of strings) or some non-tuple value.
The renderer only ever passes 3-tuples, but `set_secrets` checks. -/
inductive SKey where
  | tup (elems : List String)
  | nonTuple (tag : String)
deriving DecidableEq, Repr

/-- One iteration of the `ProductionBuild.set_secrets` loop body (lines
270-292) on the entry `(k, sec)`: a non-3-tuple key raises `ValueError`;
a null secret does nothing; otherwise the secret is mounted through the
secrets array (appending a mount and setting the addressed stage argument)
or through the legacy `sourceSecret` name, raising
`OsbsValidationException` when the legacy substructure is absent.
The `Bool` of a successful outcome reports whether a secret was set.
Python mutates the descriptor in place, so a raised exception leaves the
mutations made so far; the error outcome therefore carries the state as
mutated up to the point of failure. -/
def setSecretsEntry (t : OuterTemplate) (dj : DockJson) (k : SKey)
    (sec : Option String) :
    (OuterTemplate × DockJson × Bool) ⊕ (OuterTemplate × DockJson × RErr) :=
  match k with
  | .tup [g, n, a] =>
    match sec with
    | none => .inl (t, dj, false)
    | some s =>
      match t.strategySecrets with
      | some mounts =>
        let secretPath := pyPathJoin SECRETS_PATH s
        let mounts' := mounts ++ [SecretMount.mk s secretPath]
        let t' := { t with strategySecrets := some mounts' }
        match setArg dj g n a (.str secretPath) with
        | .ok dj' => .inl (t', dj', true)
        | .error e => .inr (t', dj, e)
      | none =>
        match t.sourceSecret with
        | none => .inr (t, dj, .validation "JSON template does not allow secrets")
        | some _ => .inl ({ t with sourceSecret := some (some s) }, dj, true)
  | _ => .inr (t, dj, .valueError "need 3-tuple as secrets key")

/-- The `ProductionBuild.set_secrets` loop (lines 268-292), iterating the
mapping entries in order with the `secret_set` flag threaded through;
the first raised exception stops the loop, carrying the state mutated so
far. -/
def setSecretsGo (t : OuterTemplate) (dj : DockJson) (secretSet : Bool) :
    List (SKey × Option String) →
    (OuterTemplate × DockJson × Bool) ⊕ (OuterTemplate × DockJson × RErr)
  | [] => .inl (t, dj, secretSet)
  | (k, sec) :: rest =>
    match setSecretsEntry t dj k sec with
    | .inl (t', dj', s) => setSecretsGo t' dj' (secretSet || s) rest
    | .inr r => .inr r

/-- `ProductionBuild.set_secrets` (lines 263-299): iterate the mapping,
then, if no secret was set, delete any secret substructures left by the
template. A raised exception propagates (the partially mutated state is
discarded along with the instance, spec §7). -/
def setSecrets (t : OuterTemplate) (dj : DockJson)
    (secrets : List (SKey × Option String)) :
    Except RErr (OuterTemplate × DockJson) :=
  match setSecretsGo t dj false secrets with
  | .inl (t, dj, secretSet) =>
    if secretSet then .ok (t, dj)
    else .ok ({ t with sourceSecret := none, strategySecrets := none }, dj)
  | .inr (_, _, e) => .error e

/-- Trigger-gated stage removal of `ProductionBuild.render` (lines
329-338): with zero declared triggers, remove the rebuild-detection,
release-bump and image-import stages. -/
def triggerGateStep (t : OuterTemplate) (dj : DockJson) : DockJson :=
  if (t.triggers.getD []).length = 0 then
    removePlugin
      (removePlugin
        (removePlugin dj "prebuild_plugins" "check_and_set_rebuild")
        "prebuild_plugins" "bump_release")
      "postbuild_plugins" "import_image"
  else dj

/-- Koji-vs-repo exclusivity of `ProductionBuild.render` (lines 340-353):
yum repo URLs remove the koji stage; missing koji parameters remove it;
otherwise its target/root/hub arguments are configured. -/
def kojiStep (p : ProdParams) (dj : DockJson) : Except RErr DockJson :=
  if listTruthy p.yumRepourls then
    .ok (removePlugin dj "prebuild_plugins" "koji")
  else if !(optTruthy p.kojiTarget && optTruthy p.kojiroot && optTruthy p.kojihub) then
    .ok (removePlugin dj "prebuild_plugins" "koji")
  else do
    let dj ← setArg dj "prebuild_plugins" "koji" "target" (.str (p.kojiTarget.getD ""))
    let dj ← setArg dj "prebuild_plugins" "koji" "root" (.str (p.kojiroot.getD ""))
    setArg dj "prebuild_plugins" "koji" "hub" (.str (p.kojihub.getD ""))

/-- The push-URL part of the release-bump configuration (lines 358-377):
with no push URL nothing happens; with one, the configured username is
optionally spliced into its authority and the result is set as the
stage's `push_url` argument. -/
def bumpPushUrlStep (p : ProdParams) (dj : DockJson) : Except RErr DockJson :=
  match p.gitPushUrl with
  | none => .ok dj
  | some url =>
    let pushUrl :=
      match p.gitPushUsername with
      | none => url
      | some user => rewritePushUrl user url
    setArg dj "prebuild_plugins" "bump_release" "push_url" (.str pushUrl)

/-- Release-bump configuration of `ProductionBuild.render` (lines
355-386): only when the release-bump stage is declared — optionally
rewrite and set the push URL, rewrite the source git ref to the branch,
and pass the original commit ref to the stage. -/
def bumpReleaseStep (p : ProdParams) (t : OuterTemplate) (dj : DockJson) :
    Except RErr (OuterTemplate × DockJson) :=
  if hasPluginConf dj "prebuild_plugins" "bump_release" then do
    let dj ← bumpPushUrlStep p dj
    let t := { t with sourceGitRef := p.gitBranch }
    let dj ← setArg dj "prebuild_plugins" "bump_release" "git_ref" (.str p.gitRef)
    .ok (t, dj)
  else .ok (t, dj)

/-- NFS-copy step of `ProductionBuild.render` (lines 398-407): configure
the stage when an NFS server path is present, remove it otherwise. -/
def nfsStep (p : ProdParams) (dj : DockJson) : Except RErr DockJson :=
  if optTruthy p.nfsServerPath then do
    let dj ← setArg dj "postbuild_plugins" "cp_built_image_to_nfs" "nfs_server_path"
      (.str (p.nfsServerPath.getD ""))
    setArg dj "postbuild_plugins" "cp_built_image_to_nfs" "nfs_dest_dir"
      (.str (p.nfsDestDir.getD ""))
  else
    .ok (removePlugin dj "postbuild_plugins" "cp_built_image_to_nfs")

/-- Pulp-push step of `ProductionBuild.render` (lines 409-425): with a
pulp registry, configure the registry name and require either a pulp
secret or a `username` argument on the stage, raising
`OsbsValidationException` otherwise; with no registry, remove the stage. -/
def pulpStep (p : ProdParams) (dj : DockJson) : Except RErr DockJson :=
  if optTruthy p.pulpRegistry then do
    let dj ← setArg dj "postbuild_plugins" "pulp_push" "pulp_registry_name"
      (.str (p.pulpRegistry.getD ""))
    if p.pulpSecret = none then do
      let conf ← getPluginConf dj "postbuild_plugins" "pulp_push"
      let args := conf.args.getD []
      if alHas args "username" then .ok dj
      else .error (RErr.validation "Pulp registry specified but no auth config")
    else .ok dj
  else
    .ok (removePlugin dj "postbuild_plugins" "pulp_push")

/-- Image-import step of `ProductionBuild.render` (lines 428-438): when
the stage is declared, configure image-stream name, source repo and
reporting URL, plus the use-auth flag when supplied. -/
def importImageStep (p : ProdParams) (dj : DockJson) : Except RErr DockJson :=
  if hasPluginConf dj "postbuild_plugins" "import_image" then do
    let dj ← setArg dj "postbuild_plugins" "import_image" "imagestream"
      (.str p.imagestreamName)
    let dj ← setArg dj "postbuild_plugins" "import_image" "docker_image_repo"
      (.str p.imagestreamUrl)
    let dj ← setArg dj "postbuild_plugins" "import_image" "url" (.str p.openshiftUri)
    match p.useAuth with
    | some b => setArg dj "postbuild_plugins" "import_image" "use_auth" (.bool b)
    | none => .ok dj
  else .ok dj

/-- The rendered build json: the final outer descriptor with the final
pipeline embedded into it (by `write_dock_json`). -/
structure RenderResult where
  template : OuterTemplate
  pipeline : DockJson
deriving DecidableEq, Repr

/-- The implicit-label set merged into the Dockerfile-label-injection
stage by `ProductionBuild.render` (lines 311-316). -/
def implicitLabels (p : ProdParams) : List (String × String) :=
  [("Architecture", p.architecture), ("Vendor", p.vendor),
   ("Build_Host", p.buildHost), ("Authoritative_Registry", p.authoritativeRegistry)]

/-- The fixed secrets mapping passed by `ProductionBuild.render` to
`set_secrets` (lines 388-391). -/
def prodSecretsMap (p : ProdParams) : List (SKey × Option String) :=
  [(SKey.tup ["postbuild_plugins", "pulp_push", "pulp_secret_path"], p.pulpSecret),
   (SKey.tup ["exit_plugins", "sendmail", "pdc_secret_path"], p.pdcSecret)]

/-- The output-name override of `ProductionBuild.render` (lines 393-396):
with a pulp secret, the output target is the bare image tag. -/
def pulpOutputOverride (p : ProdParams) (t : OuterTemplate) : OuterTemplate :=
  if optTruthy p.pulpSecret then { t with outputToName := p.imageTag }
  else t

/-- `ProductionBuild.render` (lines 301-443), chaining the common render
with the production-only steps in source order. Parameter validation
(`self.spec.validate()`) is outside the model: required parameters are
plain fields of `ProdParams`. -/
def prodRender (osVersion : List Nat)
    (resourceLimits : Option (List (String × String)))
    (p : ProdParams) (t0 : OuterTemplate) (dj0 : DockJson) :
    Except RErr RenderResult := do
  let (t, dj) ← commonRender osVersion resourceLimits p.toCommonParams t0 dj0
  let dj ← setArg dj "prebuild_plugins" "distgit_fetch_artefacts" "command"
    (.str p.sourcesCommand)
  let dj ← setArg dj "prebuild_plugins" "pull_base_image" "parent_registry"
    (.str p.registryUri)
  let dj ← mergeArg dj "prebuild_plugins" "add_labels_in_dockerfile" "labels"
    (implicitLabels p)
  let dj ← trySetArgFallback dj "store_metadata_in_osv3" "url" (.str p.openshiftUri)
  let dj := triggerGateStep t dj
  let dj ← kojiStep p dj
  let (t, dj) ← bumpReleaseStep p t dj
  let (t, dj) ← setSecrets t dj (prodSecretsMap p)
  let t := pulpOutputOverride p t
  let dj ← nfsStep p dj
  let dj ← pulpStep p dj
  let dj ← importImageStep p dj
  .ok (RenderResult.mk t dj)

/-- `SimpleBuild.render` (lines 466-481): the common render plus the
metadata-report URL with the exit/post-build fallback. -/
def simpleRender (osVersion : List Nat)
    (resourceLimits : Option (List (String × String)))
    (p : CommonParams) (t0 : OuterTemplate) (dj0 : DockJson) :
    Except RErr RenderResult := do
  let (t, dj) ← commonRender osVersion resourceLimits p t0 dj0
  let dj ← trySetArgFallback dj "store_metadata_in_osv3" "url" (.str p.openshiftUri)
  .ok (RenderResult.mk t dj)

/-- `PROD_BUILD_TYPE` from osbs/constants.py; its value `prod` is pinned
by the repository's tests (`get_build_request_by_type("prod")`). -/
def PROD_BUILD_TYPE : String := "prod"

/-- `SIMPLE_BUILD_TYPE` from osbs/constants.py; its value `simple` is
pinned by the repository's tests. -/
def SIMPLE_BUILD_TYPE : String := "simple"

/-- Modelled from the spec: `PROD_WITHOUT_KOJI_BUILD_TYPE` from
osbs/constants.py (not under src/), a deprecated build-type key distinct
from the canonical ones. -/
def PROD_WITHOUT_KOJI_BUILD_TYPE : String := "prod-without-koji"

/-- Modelled from the spec: `PROD_WITH_SECRET_BUILD_TYPE` from
osbs/constants.py (not under src/), a deprecated build-type key distinct
from the canonical ones. -/
def PROD_WITH_SECRET_BUILD_TYPE : String := "prod-with-secret"

/-- The registered build-request variants. -/
inductive BuildClass where
  | production
  | simple
deriving DecidableEq, Repr

/-- The process-wide registry populated by `@register_build_class` on
`ProductionBuild` (key `prod`) and `SimpleBuild` (key `simple`). -/
def build_classes : List (String × BuildClass) :=
  [(PROD_BUILD_TYPE, BuildClass.production), (SIMPLE_BUILD_TYPE, BuildClass.simple)]

/-- The factory's failure: Python's generic `RuntimeError`, not a typed
domain error. -/
inductive FactoryError where
  | runtimeError (msg : String)
deriving DecidableEq, Repr

/-- `BuildRequest.new_by_type` (lines 84-98): map the deprecated keys to
the canonical production key, look up the registry, and fail with a
generic `RuntimeError` for an unregistered key. -/
def new_by_type (buildName : String) : Except FactoryError BuildClass :=
  let buildName :=
    if buildName = PROD_WITHOUT_KOJI_BUILD_TYPE ∨
        buildName = PROD_WITH_SECRET_BUILD_TYPE then
      PROD_BUILD_TYPE
    else buildName
  match alGet build_classes buildName with
  | some c => .ok c
  | none => .error (.runtimeError ("Unknown build type " ++ buildName))

/-! ### Basic lemmas about the association-list and manipulator operations -/

theorem except_bind_ok {ε α β : Type} {e : Except ε α} {f : α → Except ε β} {b : β} :
    (e >>= f) = .ok b ↔ ∃ a, e = .ok a ∧ f a = .ok b := by
  cases e <;> simp [Bind.bind, Except.bind]

theorem alGet_nil {α : Type} (k : String) : alGet ([] : List (String × α)) k = none := rfl

theorem alGet_cons {α : Type} (e : String × α) (tl : List (String × α)) (k : String) :
    alGet (e :: tl) k = if e.1 = k then some e.2 else alGet tl k := by
  by_cases h : e.1 = k <;> simp [alGet, List.find?, h]

theorem alGet_map_subst_ne {α : Type} (m : List (String × α)) (k : String) (v : α)
    (k' : String) (h : k' ≠ k) :
    alGet (m.map (fun p => if p.1 = k then (k, v) else p)) k' = alGet m k' := by
  induction m with
  | nil => rfl
  | cons e tl ih =>
    simp only [List.map_cons, alGet_cons]
    by_cases he : e.1 = k
    · have h1 : ¬ (((k, v) : String × α).1 = k') := fun hk => h hk.symm
      have h2 : ¬ (e.1 = k') := fun hk => h (hk ▸ he)
      rw [if_pos he, if_neg h1, if_neg h2]
      exact ih
    · rw [if_neg he]
      by_cases he' : e.1 = k'
      · rw [if_pos he', if_pos he']
      · rw [if_neg he', if_neg he']
        exact ih

theorem alGet_map_subst_eq {α : Type} (m : List (String × α)) (k : String) (v : α)
    (h : m.any (fun p => p.1 = k) = true) :
    alGet (m.map (fun p => if p.1 = k then (k, v) else p)) k = some v := by
  induction m with
  | nil => simp at h
  | cons e tl ih =>
    simp only [List.any_cons, Bool.or_eq_true, decide_eq_true_eq] at h
    simp only [List.map_cons, alGet_cons]
    by_cases he : e.1 = k
    · rw [if_pos he]
      simp
    · rw [if_neg he, if_neg he]
      exact ih (by rcases h with h | h; exact absurd h he; exact h)

theorem alGet_append_pair {α : Type} (m : List (String × α)) (k : String) (v : α)
    (k' : String) (h : m.any (fun p => p.1 = k) = false) :
    alGet (m ++ [(k, v)]) k' = if k' = k then some v else alGet m k' := by
  induction m with
  | nil =>
    rw [List.nil_append, alGet_cons, alGet_nil]
    by_cases hk : k' = k
    · rw [if_pos (show ((k, v) : String × α).1 = k' from hk.symm), if_pos hk]
    · rw [if_neg (show ¬ (((k, v) : String × α).1 = k') from fun hh => hk hh.symm), if_neg hk]
  | cons e tl ih =>
    simp only [List.any_cons, Bool.or_eq_false_iff, decide_eq_false_iff_not] at h
    obtain ⟨he, htl⟩ := h
    simp only [List.cons_append, alGet_cons]
    by_cases he' : e.1 = k'
    · have hk : ¬ (k' = k) := fun hkk => he (he'.trans hkk)
      rw [if_pos he', if_neg hk, if_pos he']
    · rw [if_neg he', ih htl]
      by_cases hk : k' = k
      · rw [if_pos hk, if_pos hk]
      · rw [if_neg hk, if_neg hk, if_neg he']

theorem alGet_alSet {α : Type} (m : List (String × α)) (k : String) (v : α) (k' : String) :
    alGet (alSet m k v) k' = if k' = k then some v else alGet m k' := by
  unfold alSet
  by_cases hany : m.any (fun p => p.1 = k) = true
  · rw [if_pos hany]
    by_cases hk : k' = k
    · rw [if_pos hk, hk, alGet_map_subst_eq m k v hany]
    · rw [if_neg hk, alGet_map_subst_ne m k v k' hk]
  · rw [if_neg hany]
    exact alGet_append_pair m k v k' (Bool.eq_false_iff.mpr hany)

theorem alGet_mapGroup (dj : DockJson) (g : String) (F : List Plugin → List Plugin)
    (g' : String) :
    alGet (mapGroup dj g F) g' =
      if g' = g then (alGet dj g').map F else alGet dj g' := by
  induction dj with
  | nil =>
    by_cases hg : g' = g <;> simp [mapGroup, alGet_nil, hg]
  | cons e tl ih =>
    simp only [mapGroup, List.map_cons] at *
    by_cases he : e.1 = g
    · rw [if_pos he]
      rw [alGet_cons, alGet_cons]
      by_cases he' : e.1 = g'
      · have hg : g' = g := he'.symm.trans he
        rw [if_pos (show (e.1, F e.2).1 = g' from he'), if_pos he', if_pos hg]
        rfl
      · rw [if_neg (show ¬ ((e.1, F e.2).1 = g') from he'), if_neg he', ih]
    · rw [if_neg he, alGet_cons, alGet_cons]
      by_cases he' : e.1 = g'
      · have hg : ¬ (g' = g) := fun hh => he (he'.trans hh)
        rw [if_pos he', if_pos he', if_neg hg]
      · rw [if_neg he', if_neg he', ih]

theorem hasPluginConf_mapGroup (dj : DockJson) (g : String)
    (F : List Plugin → List Plugin) (g' n : String)
    (hF : ∀ ps, ((F ps).any (fun p => p.name = n)) = ps.any (fun p => p.name = n)) :
    hasPluginConf (mapGroup dj g F) g' n = hasPluginConf dj g' n := by
  unfold hasPluginConf
  rw [alGet_mapGroup]
  by_cases hg : g' = g
  · rw [if_pos hg]
    cases halget : alGet dj g' with
    | none => rfl
    | some ps => simpa using hF ps
  · rw [if_neg hg]

theorem any_name_map_preserve (ps : List Plugin) (f : Plugin → Plugin) (n' : String)
    (hf : ∀ p, (f p).name = p.name) :
    ((ps.map f).any (fun p => p.name = n')) = ps.any (fun p => p.name = n') := by
  rw [List.any_map]
  congr 1
  funext p
  simp [hf p]

/-- The per-plugin substitution used by `setArg` preserves names. -/
theorem setArg_subst_name (n key : String) (v : ArgVal) (p : Plugin) :
    (if p.name = n then { p with args := some (alSet (p.args.getD []) key v) }
     else p).name = p.name := by
  by_cases h : p.name = n <;> simp [h]

theorem setArg_ok_inv {dj : DockJson} {g n key : String} {v : ArgVal} {dj' : DockJson}
    (h : setArg dj g n key v = .ok dj') :
    hasPluginConf dj g n = true ∧
      dj' = mapGroup dj g (fun ps => ps.map (fun p =>
        if p.name = n then { p with args := some (alSet (p.args.getD []) key v) }
        else p)) := by
  unfold setArg at h
  by_cases hc : hasPluginConf dj g n
  · rw [if_pos hc] at h
    exact ⟨hc, (Except.ok.injEq _ _ ▸ h).symm ▸ rfl⟩
  · rw [if_neg hc] at h
    exact absurd h (by simp)

theorem setArg_err {dj : DockJson} {g n key : String} {v : ArgVal}
    (h : hasPluginConf dj g n = false) :
    setArg dj g n key v = .error (.stageNotFound g n) := by
  unfold setArg
  rw [if_neg (by simp [h])]

theorem setArg_ok_of_has {dj : DockJson} {g n : String} (key : String) (v : ArgVal)
    (h : hasPluginConf dj g n = true) :
    ∃ dj', setArg dj g n key v = .ok dj' := by
  unfold setArg
  rw [if_pos h]
  exact ⟨_, rfl⟩

theorem hasPluginConf_setArg {dj : DockJson} {g n key : String} {v : ArgVal}
    {dj' : DockJson} (h : setArg dj g n key v = .ok dj') (g' n' : String) :
    hasPluginConf dj' g' n' = hasPluginConf dj g' n' := by
  obtain ⟨-, rfl⟩ := setArg_ok_inv h
  exact hasPluginConf_mapGroup _ _ _ _ _
    (fun ps => any_name_map_preserve ps _ _ (fun p => setArg_subst_name n key v p))

theorem find?_name_map_preserve (ps : List Plugin) (f : Plugin → Plugin) (n' : String)
    (hf : ∀ p, (f p).name = p.name) :
    ((ps.map f).find? (fun p => p.name = n')) = (ps.find? (fun p => p.name = n')).map f := by
  rw [List.find?_map]
  have hco : ((fun p : Plugin => decide (p.name = n')) ∘ f) =
      (fun p : Plugin => decide (p.name = n')) := by
    funext p
    simp [Function.comp, hf p]
  rw [hco]

theorem pluginArg_setArg_self {dj : DockJson} {g n key : String} {v : ArgVal}
    {dj' : DockJson} (h : setArg dj g n key v = .ok dj') :
    pluginArg dj' g n key = some v := by
  obtain ⟨hc, rfl⟩ := setArg_ok_inv h
  unfold pluginArg
  rw [alGet_mapGroup, if_pos rfl]
  cases halget : alGet dj g with
  | none =>
    simp [hasPluginConf, halget] at hc
  | some ps =>
    simp only [Option.map_some', Option.getD_some]
    rw [find?_name_map_preserve ps _ n (fun p => setArg_subst_name n key v p)]
    have hex : ∃ p ∈ ps, p.name = n := by
      simpa [hasPluginConf, halget] using hc
    cases hfind : ps.find? (fun p => p.name = n) with
    | none =>
      obtain ⟨p0, hp0, hpn⟩ := hex
      have := List.find?_eq_none.mp hfind p0 hp0
      simp [hpn] at this
    | some p0 =>
      have hpn : p0.name = n := by simpa using List.find?_some hfind
      simp only [Option.map_some']
      rw [if_pos hpn]
      simp [alGet_alSet]

theorem pluginArg_setArg_other {dj : DockJson} {g n key : String} {v : ArgVal}
    {dj' : DockJson} (h : setArg dj g n key v = .ok dj') (g' n' k' : String)
    (hne : ¬ (g' = g ∧ n' = n ∧ k' = key)) :
    pluginArg dj' g' n' k' = pluginArg dj g' n' k' := by
  obtain ⟨-, rfl⟩ := setArg_ok_inv h
  unfold pluginArg
  rw [alGet_mapGroup]
  by_cases hg : g' = g
  · rw [if_pos hg]
    cases halget : alGet dj g' with
    | none => rfl
    | some ps =>
      simp only [Option.map_some', Option.getD_some]
      rw [find?_name_map_preserve ps _ n' (fun p => setArg_subst_name n key v p)]
      cases hfind : ps.find? (fun p => p.name = n') with
      | none => rfl
      | some p0 =>
        simp only [Option.map_some']
        have hpn : p0.name = n' := by simpa using List.find?_some hfind
        by_cases hn : p0.name = n
        · rw [if_pos hn]
          have hnn : n' = n := hpn.symm.trans hn
          have hkk : ¬ (k' = key) := fun hk => hne ⟨hg, hnn, hk⟩
          simp only [Option.getD_some]
          rw [alGet_alSet, if_neg hkk]
        · rw [if_neg hn]
  · rw [if_neg hg]

/-- The per-plugin substitution used by `mergeArg` preserves names. -/
theorem mergeArg_subst_name (n key : String) (part : List (String × String)) (p : Plugin) :
    (if p.name = n then
      { p with args := some (alSet (p.args.getD []) key
          (.map (match alGet (p.args.getD []) key with
                 | some (.map m) => part.foldl (fun acc kv => alSet acc kv.1 kv.2) m
                 | _ => part))) }
     else p).name = p.name := by
  by_cases h : p.name = n <;> simp [h]

theorem mergeArg_ok_inv {dj : DockJson} {g n key : String} {part : List (String × String)}
    {dj' : DockJson} (h : mergeArg dj g n key part = .ok dj') :
    hasPluginConf dj g n = true ∧
      dj' = mapGroup dj g (fun ps => ps.map (fun p =>
        if p.name = n then
          { p with args := some (alSet (p.args.getD []) key
              (.map (match alGet (p.args.getD []) key with
                     | some (.map m) => part.foldl (fun acc kv => alSet acc kv.1 kv.2) m
                     | _ => part))) }
        else p)) := by
  unfold mergeArg at h
  by_cases hc : hasPluginConf dj g n
  · rw [if_pos hc] at h
    refine ⟨hc, ?_⟩
    have := (Except.ok.injEq _ _ ▸ h)
    exact this.symm
  · rw [if_neg hc] at h
    exact absurd h (by simp)

theorem hasPluginConf_mergeArg {dj : DockJson} {g n key : String}
    {part : List (String × String)} {dj' : DockJson}
    (h : mergeArg dj g n key part = .ok dj') (g' n' : String) :
    hasPluginConf dj' g' n' = hasPluginConf dj g' n' := by
  obtain ⟨-, rfl⟩ := mergeArg_ok_inv h
  exact hasPluginConf_mapGroup _ _ _ _ _
    (fun ps => any_name_map_preserve ps _ _ (fun p => mergeArg_subst_name n key part p))

theorem pluginArg_mergeArg_other {dj : DockJson} {g n key : String}
    {part : List (String × String)} {dj' : DockJson}
    (h : mergeArg dj g n key part = .ok dj') (g' n' k' : String)
    (hne : ¬ (g' = g ∧ n' = n)) :
    pluginArg dj' g' n' k' = pluginArg dj g' n' k' := by
  obtain ⟨-, rfl⟩ := mergeArg_ok_inv h
  unfold pluginArg
  rw [alGet_mapGroup]
  by_cases hg : g' = g
  · rw [if_pos hg]
    cases halget : alGet dj g' with
    | none => rfl
    | some ps =>
      simp only [Option.map_some', Option.getD_some]
      rw [find?_name_map_preserve ps _ n' (fun p => mergeArg_subst_name n key part p)]
      cases hfind : ps.find? (fun p => p.name = n') with
      | none => rfl
      | some p0 =>
        simp only [Option.map_some']
        have hpn : p0.name = n' := by simpa using List.find?_some hfind
        have hn : ¬ (p0.name = n) := fun hh => hne ⟨hg, hpn.symm.trans hh⟩
        rw [if_neg hn]
  · rw [if_neg hg]

theorem any_name_filter (ps : List Plugin) (n n' : String) :
    ((ps.filter (fun p => p.name ≠ n)).any (fun p => p.name = n')) =
      if n' = n then false else ps.any (fun p => p.name = n') := by
  induction ps with
  | nil => by_cases h : n' = n <;> simp [h]
  | cons p tl ih =>
    by_cases hp : p.name = n
    · rw [List.filter_cons_of_neg (by simp [hp]), ih]
      by_cases h : n' = n
      · rw [if_pos h, if_pos h]
      · rw [if_neg h, if_neg h, List.any_cons]
        have : ¬ (p.name = n') := fun hh => h (hh ▸ hp)
        simp [this]
    · rw [List.filter_cons_of_pos (by simp [hp]), List.any_cons, ih, List.any_cons]
      by_cases h : n' = n
      · rw [if_pos h, if_pos h]
        have : ¬ (p.name = n') := fun hh => hp (hh.trans h)
        simp [this]
      · rw [if_neg h, if_neg h]

theorem find?_name_filter (ps : List Plugin) (n n' : String) :
    ((ps.filter (fun p => p.name ≠ n)).find? (fun p => p.name = n')) =
      if n' = n then none else ps.find? (fun p => p.name = n') := by
  induction ps with
  | nil => by_cases h : n' = n <;> simp [h]
  | cons p tl ih =>
    by_cases hp : p.name = n
    · rw [List.filter_cons_of_neg (by simp [hp]), ih]
      by_cases h : n' = n
      · rw [if_pos h, if_pos h]
      · rw [if_neg h, if_neg h, List.find?_cons_of_neg _ (by simp; exact fun hh => h (hh ▸ hp))]
    · rw [List.filter_cons_of_pos (by simp [hp])]
      by_cases hpn : p.name = n'
      · rw [List.find?_cons_of_pos _ (by simp [hpn]), List.find?_cons_of_pos _ (by simp [hpn])]
        have h : ¬ (n' = n) := fun hh => hp (hpn.trans hh)
        rw [if_neg h]
      · rw [List.find?_cons_of_neg _ (by simp [hpn]), ih,
          List.find?_cons_of_neg _ (by simp [hpn])]

theorem hasPluginConf_removePlugin (dj : DockJson) (g n g' n' : String) :
    hasPluginConf (removePlugin dj g n) g' n' =
      if g' = g ∧ n' = n then false else hasPluginConf dj g' n' := by
  unfold removePlugin hasPluginConf
  rw [alGet_mapGroup]
  by_cases hg : g' = g
  · rw [if_pos hg]
    cases halget : alGet dj g' with
    | none =>
      by_cases hn : n' = n <;> simp [hg, hn]
    | some ps =>
      simp only [Option.map_some', Option.getD_some]
      rw [any_name_filter ps n n']
      by_cases hn : n' = n
      · rw [if_pos hn, if_pos ⟨hg, hn⟩]
      · rw [if_neg hn, if_neg (fun hh => hn hh.2)]
  · rw [if_neg hg, if_neg (fun hh => hg hh.1)]

theorem pluginArg_removePlugin (dj : DockJson) (g n g' n' k' : String) :
    pluginArg (removePlugin dj g n) g' n' k' =
      if g' = g ∧ n' = n then none else pluginArg dj g' n' k' := by
  unfold removePlugin pluginArg
  rw [alGet_mapGroup]
  by_cases hg : g' = g
  · rw [if_pos hg]
    cases halget : alGet dj g' with
    | none =>
      by_cases hn : n' = n <;> simp [hg, hn]
    | some ps =>
      simp only [Option.map_some', Option.getD_some]
      rw [find?_name_filter ps n n']
      by_cases hn : n' = n
      · rw [if_pos hn, if_pos ⟨hg, hn⟩]
      · rw [if_neg hn, if_neg (fun hh => hn hh.2)]
  · rw [if_neg hg, if_neg (fun hh => hg hh.1)]

theorem alHas_eq_isSome {α : Type} (m : List (String × α)) (k : String) :
    alHas m k = (alGet m k).isSome := by
  induction m with
  | nil => rfl
  | cons e tl ih =>
    rw [alGet_cons]
    by_cases he : e.1 = k
    · simp [alHas, he]
    · simp only [alHas, List.any_cons, he, decide_eq_true_eq, if_neg he]
      simp only [alHas] at ih
      simp [he, ih]

theorem getPluginConf_args {dj : DockJson} {g n : String} {conf : Plugin}
    (h : getPluginConf dj g n = .ok conf) (k : String) :
    alGet (conf.args.getD []) k = pluginArg dj g n k := by
  unfold getPluginConf at h
  unfold pluginArg
  cases hf : ((alGet dj g).getD []).find? (fun p => p.name = n) with
  | none => rw [hf] at h; exact absurd h (by simp)
  | some p =>
    rw [hf] at h
    have : conf = p := by
      have := (Except.ok.injEq _ _ ▸ h)
      exact this.symm
    rw [this]

theorem getPluginConf_ok_of_has {dj : DockJson} {g n : String}
    (h : hasPluginConf dj g n = true) :
    ∃ conf, getPluginConf dj g n = .ok conf := by
  unfold hasPluginConf at h
  unfold getPluginConf
  rw [List.any_eq_true] at h
  obtain ⟨p, hp, hpn⟩ := h
  cases hf : ((alGet dj g).getD []).find? (fun p => p.name = n) with
  | none =>
    have := List.find?_eq_none.mp hf p hp
    exact absurd hpn this
  | some p0 => exact ⟨p0, rfl⟩

theorem getPluginConf_err {dj : DockJson} {g n : String}
    (h : hasPluginConf dj g n = false) :
    getPluginConf dj g n = .error (.stageNotFound g n) := by
  unfold getPluginConf
  cases hf : ((alGet dj g).getD []).find? (fun p => p.name = n) with
  | none => rfl
  | some p0 =>
    have hpn : p0.name = n := by simpa using List.find?_some hf
    have hmem := List.mem_of_find?_eq_some hf
    have : hasPluginConf dj g n = true := by
      unfold hasPluginConf
      rw [List.any_eq_true]
      exact ⟨p0, hmem, by simp [hpn]⟩
    rw [this] at h
    exact absurd h (by simp)

/-! ### The exit-preferred, post-build-fallback rule -/

theorem trySetArgFallback_exit {dj : DockJson} {name key : String} {v : ArgVal}
    (h : hasPluginConf dj "exit_plugins" name = true) :
    trySetArgFallback dj name key v = setArg dj "exit_plugins" name key v := by
  unfold trySetArgFallback
  obtain ⟨dj', hdj'⟩ := setArg_ok_of_has key v h
  rw [hdj']

theorem trySetArgFallback_fallback {dj : DockJson} {name key : String} {v : ArgVal}
    (h : hasPluginConf dj "exit_plugins" name = false) :
    trySetArgFallback dj name key v = setArg dj "postbuild_plugins" name key v := by
  unfold trySetArgFallback
  rw [setArg_err h]

theorem trySetArgFallback_neither {dj : DockJson} {name key : String} {v : ArgVal}
    (hexit : hasPluginConf dj "exit_plugins" name = false)
    (hpost : hasPluginConf dj "postbuild_plugins" name = false) :
    trySetArgFallback dj name key v = .error (.stageNotFound "postbuild_plugins" name) := by
  rw [trySetArgFallback_fallback hexit, setArg_err hpost]

theorem hasPluginConf_trySetArgFallback {dj dj' : DockJson} {name key : String}
    {v : ArgVal} (h : trySetArgFallback dj name key v = .ok dj') (g' n' : String) :
    hasPluginConf dj' g' n' = hasPluginConf dj g' n' := by
  by_cases hexit : hasPluginConf dj "exit_plugins" name = true
  · rw [trySetArgFallback_exit hexit] at h
    exact hasPluginConf_setArg h g' n'
  · rw [trySetArgFallback_fallback (Bool.eq_false_iff.mpr hexit)] at h
    exact hasPluginConf_setArg h g' n'

theorem pluginArg_trySetArgFallback_other {dj dj' : DockJson} {name key : String}
    {v : ArgVal} (h : trySetArgFallback dj name key v = .ok dj') (g' n' k' : String)
    (hn : ¬ (n' = name)) :
    pluginArg dj' g' n' k' = pluginArg dj g' n' k' := by
  by_cases hexit : hasPluginConf dj "exit_plugins" name = true
  · rw [trySetArgFallback_exit hexit] at h
    exact pluginArg_setArg_other h g' n' k' (fun hh => hn hh.2.1)
  · rw [trySetArgFallback_fallback (Bool.eq_false_iff.mpr hexit)] at h
    exact pluginArg_setArg_other h g' n' k' (fun hh => hn hh.2.1)

/-! ### Preservation lemmas for the render steps -/

theorem hasPluginConf_yumRepoStep {p : CommonParams} {dj dj' : DockJson}
    (h : yumRepoStep p dj = .ok dj') (g' n' : String) :
    hasPluginConf dj' g' n' = hasPluginConf dj g' n' := by
  unfold yumRepoStep at h
  by_cases hc : (p.yumRepourls.isSome &&
      hasPluginConf dj "prebuild_plugins" "add_yum_repo_by_url") = true
  · rw [if_pos hc] at h
    exact hasPluginConf_setArg h g' n'
  · rw [if_neg hc] at h
    cases h
    rfl

theorem hasPluginConf_rebuildStep {p : CommonParams} {dj dj' : DockJson}
    (h : rebuildStep p dj = .ok dj') (g' n' : String) :
    hasPluginConf dj' g' n' = hasPluginConf dj g' n' := by
  unfold rebuildStep at h
  by_cases hc : hasPluginConf dj "prebuild_plugins" "check_and_set_rebuild" = true
  · rw [if_pos hc] at h
    rw [except_bind_ok] at h
    obtain ⟨dj1, h1, h2⟩ := h
    cases hua : p.useAuth with
    | some b =>
      rw [hua] at h2
      rw [hasPluginConf_setArg h2 g' n', hasPluginConf_setArg h1 g' n']
    | none =>
      rw [hua] at h2
      cases h2
      exact hasPluginConf_setArg h1 g' n'
  · rw [if_neg hc] at h
    cases h
    rfl

theorem hasPluginConf_useAuthStep {p : CommonParams} {dj dj' : DockJson}
    (h : useAuthStep p dj = .ok dj') (g' n' : String) :
    hasPluginConf dj' g' n' = hasPluginConf dj g' n' := by
  unfold useAuthStep at h
  cases hua : p.useAuth with
  | some b =>
    rw [hua] at h
    exact hasPluginConf_trySetArgFallback h g' n'
  | none =>
    rw [hua] at h
    cases h
    rfl

theorem kojiStep_removed_yum {p : ProdParams} {dj : DockJson}
    (h : listTruthy p.yumRepourls = true) :
    kojiStep p dj = .ok (removePlugin dj "prebuild_plugins" "koji") := by
  unfold kojiStep
  rw [if_pos h]

theorem kojiStep_removed_missing {p : ProdParams} {dj : DockJson}
    (h : listTruthy p.yumRepourls = false)
    (hk : (optTruthy p.kojiTarget && optTruthy p.kojiroot && optTruthy p.kojihub) = false) :
    kojiStep p dj = .ok (removePlugin dj "prebuild_plugins" "koji") := by
  unfold kojiStep
  rw [if_neg (by simp [h]), if_pos (by simp [hk])]

theorem kojiStep_configured {p : ProdParams} {dj dj' : DockJson}
    (h : listTruthy p.yumRepourls = false)
    (hk : (optTruthy p.kojiTarget && optTruthy p.kojiroot && optTruthy p.kojihub) = true)
    (hok : kojiStep p dj = .ok dj') :
    pluginArg dj' "prebuild_plugins" "koji" "target" = some (.str (p.kojiTarget.getD "")) ∧
    pluginArg dj' "prebuild_plugins" "koji" "root" = some (.str (p.kojiroot.getD "")) ∧
    pluginArg dj' "prebuild_plugins" "koji" "hub" = some (.str (p.kojihub.getD "")) ∧
    (∀ g' n', hasPluginConf dj' g' n' = hasPluginConf dj g' n') := by
  unfold kojiStep at hok
  rw [if_neg (by simp [h]), if_neg (by simp [hk])] at hok
  rw [except_bind_ok] at hok
  obtain ⟨dj1, h1, hok⟩ := hok
  rw [except_bind_ok] at hok
  obtain ⟨dj2, h2, h3⟩ := hok
  refine ⟨?_, ?_, pluginArg_setArg_self h3, ?_⟩
  · rw [pluginArg_setArg_other h3 _ _ _ (by simp), pluginArg_setArg_other h2 _ _ _ (by simp)]
    exact pluginArg_setArg_self h1
  · rw [pluginArg_setArg_other h3 _ _ _ (by simp)]
    exact pluginArg_setArg_self h2
  · intro g' n'
    rw [hasPluginConf_setArg h3, hasPluginConf_setArg h2, hasPluginConf_setArg h1]

theorem hasPluginConf_kojiStep_other {p : ProdParams} {dj dj' : DockJson}
    (hok : kojiStep p dj = .ok dj') (g' n' : String)
    (hn : ¬ (g' = "prebuild_plugins" ∧ n' = "koji")) :
    hasPluginConf dj' g' n' = hasPluginConf dj g' n' := by
  unfold kojiStep at hok
  by_cases h1 : listTruthy p.yumRepourls = true
  · rw [if_pos h1] at hok
    cases hok
    rw [hasPluginConf_removePlugin, if_neg hn]
  · rw [if_neg h1] at hok
    by_cases h2 : (!(optTruthy p.kojiTarget && optTruthy p.kojiroot && optTruthy p.kojihub)) = true
    · rw [if_pos h2] at hok
      cases hok
      rw [hasPluginConf_removePlugin, if_neg hn]
    · rw [if_neg h2] at hok
      rw [except_bind_ok] at hok
      obtain ⟨dj1, hh1, hok⟩ := hok
      rw [except_bind_ok] at hok
      obtain ⟨dj2, hh2, hh3⟩ := hok
      rw [hasPluginConf_setArg hh3, hasPluginConf_setArg hh2, hasPluginConf_setArg hh1]

theorem pluginArg_kojiStep_other {p : ProdParams} {dj dj' : DockJson}
    (hok : kojiStep p dj = .ok dj') (g' n' k' : String)
    (hn : ¬ (n' = "koji")) :
    pluginArg dj' g' n' k' = pluginArg dj g' n' k' := by
  unfold kojiStep at hok
  by_cases h1 : listTruthy p.yumRepourls = true
  · rw [if_pos h1] at hok
    cases hok
    rw [pluginArg_removePlugin, if_neg (fun hh => hn hh.2)]
  · rw [if_neg h1] at hok
    by_cases h2 : (!(optTruthy p.kojiTarget && optTruthy p.kojiroot && optTruthy p.kojihub)) = true
    · rw [if_pos h2] at hok
      cases hok
      rw [pluginArg_removePlugin, if_neg (fun hh => hn hh.2)]
    · rw [if_neg h2] at hok
      rw [except_bind_ok] at hok
      obtain ⟨dj1, hh1, hok⟩ := hok
      rw [except_bind_ok] at hok
      obtain ⟨dj2, hh2, hh3⟩ := hok
      rw [pluginArg_setArg_other hh3 _ _ _ (fun hh => hn hh.2.1),
        pluginArg_setArg_other hh2 _ _ _ (fun hh => hn hh.2.1),
        pluginArg_setArg_other hh1 _ _ _ (fun hh => hn hh.2.1)]

theorem bumpReleaseStep_absent {p : ProdParams} {t : OuterTemplate} {dj : DockJson}
    (h : hasPluginConf dj "prebuild_plugins" "bump_release" = false) :
    bumpReleaseStep p t dj = .ok (t, dj) := by
  unfold bumpReleaseStep
  rw [if_neg (by simp [h])]

theorem hasPluginConf_bumpPushUrlStep {p : ProdParams} {dj dj' : DockJson}
    (h : bumpPushUrlStep p dj = .ok dj') (g' n' : String) :
    hasPluginConf dj' g' n' = hasPluginConf dj g' n' := by
  unfold bumpPushUrlStep at h
  cases hurl : p.gitPushUrl with
  | none =>
    rw [hurl] at h
    cases h
    rfl
  | some url =>
    rw [hurl] at h
    exact hasPluginConf_setArg h g' n'

theorem pluginArg_bumpPushUrlStep_other {p : ProdParams} {dj dj' : DockJson}
    (h : bumpPushUrlStep p dj = .ok dj') (g' n' k' : String)
    (hne : ¬ (g' = "prebuild_plugins" ∧ n' = "bump_release" ∧ k' = "push_url")) :
    pluginArg dj' g' n' k' = pluginArg dj g' n' k' := by
  unfold bumpPushUrlStep at h
  cases hurl : p.gitPushUrl with
  | none =>
    rw [hurl] at h
    cases h
    rfl
  | some url =>
    rw [hurl] at h
    exact pluginArg_setArg_other h _ _ _ hne

theorem bumpPushUrlStep_both {p : ProdParams} {dj dj' : DockJson} {url user : String}
    (hurl : p.gitPushUrl = some url) (huser : p.gitPushUsername = some user)
    (h : bumpPushUrlStep p dj = .ok dj') :
    pluginArg dj' "prebuild_plugins" "bump_release" "push_url" =
      some (.str (rewritePushUrl user url)) := by
  unfold bumpPushUrlStep at h
  rw [hurl, huser] at h
  exact pluginArg_setArg_self h

theorem bumpReleaseStep_present {p : ProdParams} {t t' : OuterTemplate}
    {dj dj' : DockJson}
    (hb : hasPluginConf dj "prebuild_plugins" "bump_release" = true)
    (h : bumpReleaseStep p t dj = .ok (t', dj')) :
    t' = { t with sourceGitRef := p.gitBranch } ∧
    pluginArg dj' "prebuild_plugins" "bump_release" "git_ref" = some (.str p.gitRef) ∧
    (∀ url user, p.gitPushUrl = some url → p.gitPushUsername = some user →
      pluginArg dj' "prebuild_plugins" "bump_release" "push_url" =
        some (.str (rewritePushUrl user url))) ∧
    (∀ g' n' k', ¬ (g' = "prebuild_plugins" ∧ n' = "bump_release") →
      pluginArg dj' g' n' k' = pluginArg dj g' n' k') ∧
    (∀ g' n', hasPluginConf dj' g' n' = hasPluginConf dj g' n') := by
  unfold bumpReleaseStep at h
  rw [if_pos hb] at h
  rw [except_bind_ok] at h
  obtain ⟨dj1, h1, h⟩ := h
  rw [except_bind_ok] at h
  obtain ⟨dj2, h2, h3⟩ := h
  have hpair : ({ t with sourceGitRef := p.gitBranch }, dj2) = ((t', dj') :
      OuterTemplate × DockJson) := by
    exact Except.ok.inj h3
  have ht' : t' = { t with sourceGitRef := p.gitBranch } := (Prod.mk.inj hpair).1.symm
  have hdj' : dj' = dj2 := (Prod.mk.inj hpair).2.symm
  subst hdj'
  refine ⟨ht', pluginArg_setArg_self h2, ?_, ?_, ?_⟩
  · intro url user hurl huser
    rw [pluginArg_setArg_other h2 _ _ _ (by simp)]
    exact bumpPushUrlStep_both hurl huser h1
  · intro g' n' k' hne
    rw [pluginArg_setArg_other h2 _ _ _ (fun hh => hne ⟨hh.1, hh.2.1⟩)]
    exact pluginArg_bumpPushUrlStep_other h1 _ _ _ (fun hh => hne ⟨hh.1, hh.2.1⟩)
  · intro g' n'
    rw [hasPluginConf_setArg h2]
    exact hasPluginConf_bumpPushUrlStep h1 g' n'

/-! ### Lemmas about `set_secrets` -/

/-- Template facts preserved by one `set_secrets` state transition:
a missing secrets array stays missing, a missing legacy `sourceSecret`
stays missing, and the fields the loop never touches are unchanged. -/
def TmplInv (t t' : OuterTemplate) : Prop :=
  (t.strategySecrets = none → t'.strategySecrets = none) ∧
  (t.sourceSecret = none → t'.sourceSecret = none) ∧
  t'.triggers = t.triggers ∧
  t'.outputToName = t.outputToName ∧
  t'.sourceGitRef = t.sourceGitRef

theorem tmplInv_rfl (t : OuterTemplate) : TmplInv t t :=
  ⟨fun h => h, fun h => h, rfl, rfl, rfl⟩

theorem setSecretsEntry_inl_facts {t : OuterTemplate} {dj : DockJson} {k : SKey}
    {sec : Option String} {t' : OuterTemplate} {dj' : DockJson} {s : Bool}
    (h : setSecretsEntry t dj k sec = .inl (t', dj', s)) :
    TmplInv t t' ∧ (∀ g n, hasPluginConf dj' g n = hasPluginConf dj g n) := by
  unfold setSecretsEntry at h
  match k, h with
  | .tup [g1, n1, a1], h =>
    cases hsec : sec with
    | none =>
      rw [hsec] at h
      obtain ⟨rfl, rfl, rfl⟩ :=
        Prod.mk.inj_iff.mp (Sum.inl.inj h) |>.imp id Prod.mk.inj_iff.mp
      exact ⟨tmplInv_rfl t, fun g n => rfl⟩
    | some sv =>
      rw [hsec] at h
      cases hstrat : t.strategySecrets with
      | some mounts =>
        rw [hstrat] at h
        simp only at h
        cases hset : setArg dj g1 n1 a1 (.str (pyPathJoin SECRETS_PATH sv)) with
        | ok dj1 =>
          rw [hset] at h
          obtain ⟨rfl, rfl, rfl⟩ :=
            Prod.mk.inj_iff.mp (Sum.inl.inj h) |>.imp id Prod.mk.inj_iff.mp
          refine ⟨⟨fun hc => ?_, fun hc => hc, rfl, rfl, rfl⟩,
            fun g n => hasPluginConf_setArg hset g n⟩
          rw [hstrat] at hc
          cases hc
        | error e1 =>
          rw [hset] at h
          cases h
      | none =>
        rw [hstrat] at h
        cases hsrc : t.sourceSecret with
        | none =>
          rw [hsrc] at h
          cases h
        | some x =>
          rw [hsrc] at h
          obtain ⟨rfl, rfl, rfl⟩ :=
            Prod.mk.inj_iff.mp (Sum.inl.inj h) |>.imp id Prod.mk.inj_iff.mp
          refine ⟨⟨fun _ => rfl, fun hc => ?_, rfl, rfl, rfl⟩, fun g n => rfl⟩
          rw [hsrc] at hc
          cases hc
  | .tup [], h => cases h
  | .tup [a], h => cases h
  | .tup [a, b], h => cases h
  | .tup (a :: b :: c :: d :: es), h => cases h
  | .nonTuple tag, h => cases h

theorem setSecretsEntry_inr_facts {t : OuterTemplate} {dj : DockJson} {k : SKey}
    {sec : Option String} {t' : OuterTemplate} {dj' : DockJson} {e : RErr}
    (h : setSecretsEntry t dj k sec = .inr (t', dj', e)) :
    TmplInv t t' ∧ dj' = dj := by
  unfold setSecretsEntry at h
  match k, h with
  | .tup [g1, n1, a1], h =>
    cases hsec : sec with
    | none =>
      rw [hsec] at h
      cases h
    | some sv =>
      rw [hsec] at h
      cases hstrat : t.strategySecrets with
      | some mounts =>
        rw [hstrat] at h
        simp only at h
        cases hset : setArg dj g1 n1 a1 (.str (pyPathJoin SECRETS_PATH sv)) with
        | ok dj1 =>
          rw [hset] at h
          cases h
        | error e1 =>
          rw [hset] at h
          obtain ⟨rfl, rfl, rfl⟩ :=
            Prod.mk.inj_iff.mp (Sum.inr.inj h) |>.imp id Prod.mk.inj_iff.mp
          refine ⟨⟨fun hc => ?_, fun hc => hc, rfl, rfl, rfl⟩, rfl⟩
          rw [hstrat] at hc
          cases hc
      | none =>
        rw [hstrat] at h
        cases hsrc : t.sourceSecret with
        | none =>
          rw [hsrc] at h
          obtain ⟨rfl, rfl, rfl⟩ :=
            Prod.mk.inj_iff.mp (Sum.inr.inj h) |>.imp id Prod.mk.inj_iff.mp
          exact ⟨tmplInv_rfl t, rfl⟩
        | some x =>
          rw [hsrc] at h
          cases h
  | .tup [], h =>
    obtain ⟨rfl, rfl, rfl⟩ :=
      Prod.mk.inj_iff.mp (Sum.inr.inj h) |>.imp id Prod.mk.inj_iff.mp
    exact ⟨tmplInv_rfl t, rfl⟩
  | .tup [a], h =>
    obtain ⟨rfl, rfl, rfl⟩ :=
      Prod.mk.inj_iff.mp (Sum.inr.inj h) |>.imp id Prod.mk.inj_iff.mp
    exact ⟨tmplInv_rfl t, rfl⟩
  | .tup [a, b], h =>
    obtain ⟨rfl, rfl, rfl⟩ :=
      Prod.mk.inj_iff.mp (Sum.inr.inj h) |>.imp id Prod.mk.inj_iff.mp
    exact ⟨tmplInv_rfl t, rfl⟩
  | .tup (a :: b :: c :: d :: es), h =>
    obtain ⟨rfl, rfl, rfl⟩ :=
      Prod.mk.inj_iff.mp (Sum.inr.inj h) |>.imp id Prod.mk.inj_iff.mp
    exact ⟨tmplInv_rfl t, rfl⟩
  | .nonTuple tag, h =>
    obtain ⟨rfl, rfl, rfl⟩ :=
      Prod.mk.inj_iff.mp (Sum.inr.inj h) |>.imp id Prod.mk.inj_iff.mp
    exact ⟨tmplInv_rfl t, rfl⟩

theorem setSecretsEntry_pluginArg_other {g₀ n₀ k₀ : String} {t : OuterTemplate}
    {dj : DockJson} {k : SKey} {sec : Option String} {t' : OuterTemplate}
    {dj' : DockJson} {s : Bool}
    (hk : ∀ g1 n1 a1, k = SKey.tup [g1, n1, a1] → ¬ (g1 = g₀ ∧ n1 = n₀ ∧ a1 = k₀))
    (h : setSecretsEntry t dj k sec = .inl (t', dj', s)) :
    pluginArg dj' g₀ n₀ k₀ = pluginArg dj g₀ n₀ k₀ := by
  unfold setSecretsEntry at h
  match k, hk, h with
  | .tup [g1, n1, a1], hk, h =>
    have hne : ¬ (g1 = g₀ ∧ n1 = n₀ ∧ a1 = k₀) := hk g1 n1 a1 rfl
    cases hsec : sec with
    | none =>
      rw [hsec] at h
      obtain ⟨rfl, rfl, rfl⟩ :=
        Prod.mk.inj_iff.mp (Sum.inl.inj h) |>.imp id Prod.mk.inj_iff.mp
      rfl
    | some sv =>
      rw [hsec] at h
      cases hstrat : t.strategySecrets with
      | some mounts =>
        rw [hstrat] at h
        simp only at h
        cases hset : setArg dj g1 n1 a1 (.str (pyPathJoin SECRETS_PATH sv)) with
        | ok dj1 =>
          rw [hset] at h
          obtain ⟨rfl, rfl, rfl⟩ :=
            Prod.mk.inj_iff.mp (Sum.inl.inj h) |>.imp id Prod.mk.inj_iff.mp
          exact pluginArg_setArg_other hset _ _ _
            (fun hh => hne ⟨hh.1.symm, hh.2.1.symm, hh.2.2.symm⟩)
        | error e1 =>
          rw [hset] at h
          cases h
      | none =>
        rw [hstrat] at h
        cases hsrc : t.sourceSecret with
        | none =>
          rw [hsrc] at h
          cases h
        | some x =>
          rw [hsrc] at h
          obtain ⟨rfl, rfl, rfl⟩ :=
            Prod.mk.inj_iff.mp (Sum.inl.inj h) |>.imp id Prod.mk.inj_iff.mp
          rfl
  | .tup [], hk, h => cases h
  | .tup [a], hk, h => cases h
  | .tup [a, b], hk, h => cases h
  | .tup (a :: b :: c :: d :: es), hk, h => cases h
  | .nonTuple tag, hk, h => cases h

theorem setSecretsGo_presence {entries : List (SKey × Option String)} :
    ∀ {t : OuterTemplate} {dj : DockJson} {flag : Bool},
    (∀ t' dj' flag', setSecretsGo t dj flag entries = .inl (t', dj', flag') →
      ∀ g n, hasPluginConf dj' g n = hasPluginConf dj g n) ∧
    (∀ t' dj' e, setSecretsGo t dj flag entries = .inr (t', dj', e) →
      ∀ g n, hasPluginConf dj' g n = hasPluginConf dj g n) := by
  induction entries with
  | nil =>
    intro t dj flag
    constructor
    · intro t' dj' flag' h g n
      cases h
      rfl
    · intro t' dj' e h g n
      cases h
  | cons entry rest ih =>
    intro t dj flag
    obtain ⟨k, sec⟩ := entry
    constructor
    · intro t' dj' flag' h g n
      unfold setSecretsGo at h
      cases hentry : setSecretsEntry t dj k sec with
      | inl x =>
        obtain ⟨t1, dj1, s1⟩ := x
        rw [hentry] at h
        simp only at h
        rw [ih.1 t' dj' flag' h g n]
        exact (setSecretsEntry_inl_facts hentry).2 g n
      | inr r =>
        rw [hentry] at h
        simp only at h
        cases h
    · intro t' dj' e h g n
      unfold setSecretsGo at h
      cases hentry : setSecretsEntry t dj k sec with
      | inl x =>
        obtain ⟨t1, dj1, s1⟩ := x
        rw [hentry] at h
        simp only at h
        rw [ih.2 t' dj' e h g n]
        exact (setSecretsEntry_inl_facts hentry).2 g n
      | inr r =>
        obtain ⟨t1, dj1, e1⟩ := r
        rw [hentry] at h
        simp only at h
        cases h
        rw [(setSecretsEntry_inr_facts hentry).2]

theorem tmplInv_trans {t1 t2 t3 : OuterTemplate}
    (h12 : TmplInv t1 t2) (h23 : TmplInv t2 t3) : TmplInv t1 t3 :=
  ⟨fun h => h23.1 (h12.1 h), fun h => h23.2.1 (h12.2.1 h),
   h23.2.2.1.trans h12.2.2.1, h23.2.2.2.1.trans h12.2.2.2.1,
   h23.2.2.2.2.trans h12.2.2.2.2⟩

theorem setSecretsGo_template {entries : List (SKey × Option String)} :
    ∀ {t : OuterTemplate} {dj : DockJson} {flag : Bool},
    (∀ t' dj' flag', setSecretsGo t dj flag entries = .inl (t', dj', flag') →
      TmplInv t t') ∧
    (∀ t' dj' e, setSecretsGo t dj flag entries = .inr (t', dj', e) → TmplInv t t') := by
  induction entries with
  | nil =>
    intro t dj flag
    constructor
    · intro t' dj' flag' h
      cases h
      exact tmplInv_rfl t
    · intro t' dj' e h
      cases h
  | cons entry rest ih =>
    intro t dj flag
    obtain ⟨k, sec⟩ := entry
    constructor
    · intro t' dj' flag' h
      unfold setSecretsGo at h
      cases hentry : setSecretsEntry t dj k sec with
      | inl x =>
        obtain ⟨t1, dj1, s1⟩ := x
        rw [hentry] at h
        simp only at h
        exact tmplInv_trans (setSecretsEntry_inl_facts hentry).1 (ih.1 t' dj' flag' h)
      | inr r =>
        rw [hentry] at h
        simp only at h
        cases h
    · intro t' dj' e h
      unfold setSecretsGo at h
      cases hentry : setSecretsEntry t dj k sec with
      | inl x =>
        obtain ⟨t1, dj1, s1⟩ := x
        rw [hentry] at h
        simp only at h
        exact tmplInv_trans (setSecretsEntry_inl_facts hentry).1 (ih.2 t' dj' e h)
      | inr r =>
        obtain ⟨t1, dj1, e1⟩ := r
        rw [hentry] at h
        simp only at h
        cases h
        exact (setSecretsEntry_inr_facts hentry).1

theorem setSecretsGo_pluginArg_other {g₀ n₀ k₀ : String} :
    ∀ {entries : List (SKey × Option String)},
    (∀ e ∈ entries, ∀ g1 n1 a1, e.1 = SKey.tup [g1, n1, a1] →
      ¬ (g1 = g₀ ∧ n1 = n₀ ∧ a1 = k₀)) →
    ∀ {t : OuterTemplate} {dj : DockJson} {flag : Bool}
      {t' : OuterTemplate} {dj' : DockJson} {flag' : Bool},
    setSecretsGo t dj flag entries = .inl (t', dj', flag') →
    pluginArg dj' g₀ n₀ k₀ = pluginArg dj g₀ n₀ k₀ := by
  intro entries
  induction entries with
  | nil =>
    intro _ t dj flag t' dj' flag' h
    cases h
    rfl
  | cons entry rest ih =>
    intro hent t dj flag t' dj' flag' h
    obtain ⟨k, sec⟩ := entry
    have hrest : ∀ e ∈ rest, ∀ g1 n1 a1, e.1 = SKey.tup [g1, n1, a1] →
        ¬ (g1 = g₀ ∧ n1 = n₀ ∧ a1 = k₀) :=
      fun e he => hent e (List.mem_cons_of_mem _ he)
    have hk : ∀ g1 n1 a1, k = SKey.tup [g1, n1, a1] →
        ¬ (g1 = g₀ ∧ n1 = n₀ ∧ a1 = k₀) :=
      fun g1 n1 a1 hh => hent (k, sec) (List.mem_cons_self _ _) g1 n1 a1 hh
    unfold setSecretsGo at h
    cases hentry : setSecretsEntry t dj k sec with
    | inl x =>
      obtain ⟨t1, dj1, s1⟩ := x
      rw [hentry] at h
      simp only at h
      rw [ih hrest h]
      exact setSecretsEntry_pluginArg_other hk hentry
    | inr r =>
      rw [hentry] at h
      simp only at h
      cases h

theorem setSecretsGo_append (pre rest : List (SKey × Option String)) :
    ∀ {t : OuterTemplate} {dj : DockJson} {flag : Bool}
      {t1 : OuterTemplate} {dj1 : DockJson} {flag1 : Bool},
    setSecretsGo t dj flag pre = .inl (t1, dj1, flag1) →
    setSecretsGo t dj flag (pre ++ rest) = setSecretsGo t1 dj1 flag1 rest := by
  induction pre with
  | nil =>
    intro t dj flag t1 dj1 flag1 h
    cases h
    rfl
  | cons entry tl ih =>
    intro t dj flag t1 dj1 flag1 h
    obtain ⟨k, sec⟩ := entry
    rw [List.cons_append]
    cases hentry : setSecretsEntry t dj k sec with
    | inl x =>
      obtain ⟨t2, dj2, s2⟩ := x
      unfold setSecretsGo at h
      rw [hentry] at h
      simp only at h
      have hcons : setSecretsGo t dj flag ((k, sec) :: (tl ++ rest)) =
          (match setSecretsEntry t dj k sec with
           | .inl (t', dj', s) => setSecretsGo t' dj' (flag || s) (tl ++ rest)
           | .inr r => .inr r) := rfl
      have hstep : setSecretsGo t dj flag ((k, sec) :: (tl ++ rest)) =
          setSecretsGo t2 dj2 (flag || s2) (tl ++ rest) := by
        rw [hcons, hentry]
      rw [hstep]

      exact ih h
    | inr r =>
      unfold setSecretsGo at h
      rw [hentry] at h
      simp only at h
      cases h

theorem setSecretsGo_all_none (entries : List (SKey × Option String))
    (hval : ∀ e ∈ entries, (∃ g1 n1 a1, e.1 = SKey.tup [g1, n1, a1]) ∧ e.2 = none) :
    ∀ (t : OuterTemplate) (dj : DockJson) (flag : Bool),
    setSecretsGo t dj flag entries = .inl (t, dj, flag) := by
  induction entries with
  | nil =>
    intro t dj flag
    rfl
  | cons entry rest ih =>
    intro t dj flag
    obtain ⟨k, sec⟩ := entry
    obtain ⟨⟨g1, n1, a1, hk⟩, hsec⟩ := hval (k, sec) (List.mem_cons_self _ _)
    simp only at hk hsec
    subst hk
    subst hsec
    unfold setSecretsGo setSecretsEntry
    simp only [Bool.or_false]
    exact ih (fun e he => hval e (List.mem_cons_of_mem _ he)) t dj flag

theorem setSecrets_ok_inv {t : OuterTemplate} {dj : DockJson}
    {entries : List (SKey × Option String)} {t' : OuterTemplate} {dj' : DockJson}
    (h : setSecrets t dj entries = .ok (t', dj')) :
    ∃ t1 flag, setSecretsGo t dj false entries = .inl (t1, dj', flag) ∧
      t' = (if flag then t1
            else { t1 with sourceSecret := none, strategySecrets := none }) := by
  unfold setSecrets at h
  cases hgo : setSecretsGo t dj false entries with
  | inl x =>
    obtain ⟨t1, dj1, flag⟩ := x
    rw [hgo] at h
    simp only at h
    by_cases hflag : flag = true
    · subst hflag
      rw [if_pos rfl] at h
      have hpair : ((t1, dj1) : OuterTemplate × DockJson) = (t', dj') := Except.ok.inj h
      refine ⟨t1, true, ?_, ?_⟩
      · rw [(Prod.mk.inj hpair).2]
      · rw [if_pos rfl, (Prod.mk.inj hpair).1]
    · have hflag' : flag = false := Bool.eq_false_iff.mpr hflag
      subst hflag'
      rw [if_neg (by simp)] at h
      have hpair : (({ t1 with sourceSecret := none, strategySecrets := none }, dj1) :
          OuterTemplate × DockJson) = (t', dj') := Except.ok.inj h
      refine ⟨t1, false, ?_, ?_⟩
      · rw [(Prod.mk.inj hpair).2]
      · rw [if_neg (by simp), (Prod.mk.inj hpair).1]
  | inr x =>
    obtain ⟨t1, dj1, e⟩ := x
    rw [hgo] at h
    simp only at h
    cases h

theorem setSecrets_presence {t : OuterTemplate} {dj : DockJson}
    {entries : List (SKey × Option String)} {t' : OuterTemplate} {dj' : DockJson}
    (h : setSecrets t dj entries = .ok (t', dj')) (g n : String) :
    hasPluginConf dj' g n = hasPluginConf dj g n := by
  obtain ⟨t1, flag, hgo, -⟩ := setSecrets_ok_inv h
  exact setSecretsGo_presence.1 t1 dj' flag hgo g n

theorem setSecrets_template {t : OuterTemplate} {dj : DockJson}
    {entries : List (SKey × Option String)} {t' : OuterTemplate} {dj' : DockJson}
    (h : setSecrets t dj entries = .ok (t', dj')) :
    TmplInv t t' := by
  obtain ⟨t1, flag, hgo, ht'⟩ := setSecrets_ok_inv h
  have hinv : TmplInv t t1 := setSecretsGo_template.1 t1 dj' flag hgo
  subst ht'
  by_cases hflag : flag = true
  · subst hflag
    rw [if_pos rfl]
    exact hinv
  · have hflag' : flag = false := Bool.eq_false_iff.mpr hflag
    subst hflag'
    rw [if_neg (by simp)]
    exact ⟨fun _ => rfl, fun _ => rfl, hinv.2.2.1, hinv.2.2.2.1, hinv.2.2.2.2⟩

theorem setSecrets_pluginArg_other {g₀ n₀ k₀ : String} {t : OuterTemplate}
    {dj : DockJson} {entries : List (SKey × Option String)} {t' : OuterTemplate}
    {dj' : DockJson}
    (hent : ∀ e ∈ entries, ∀ g1 n1 a1, e.1 = SKey.tup [g1, n1, a1] →
      ¬ (g1 = g₀ ∧ n1 = n₀ ∧ a1 = k₀))
    (h : setSecrets t dj entries = .ok (t', dj')) :
    pluginArg dj' g₀ n₀ k₀ = pluginArg dj g₀ n₀ k₀ := by
  obtain ⟨t1, flag, hgo, -⟩ := setSecrets_ok_inv h
  exact setSecretsGo_pluginArg_other hent hgo

/-! ### Lemmas for the remaining production steps -/

theorem hasPluginConf_nfsStep_other {p : ProdParams} {dj dj' : DockJson}
    (h : nfsStep p dj = .ok dj') (g' n' : String)
    (hn : ¬ (g' = "postbuild_plugins" ∧ n' = "cp_built_image_to_nfs")) :
    hasPluginConf dj' g' n' = hasPluginConf dj g' n' := by
  unfold nfsStep at h
  by_cases hc : optTruthy p.nfsServerPath = true
  · rw [if_pos hc] at h
    rw [except_bind_ok] at h
    obtain ⟨dj1, h1, h2⟩ := h
    rw [hasPluginConf_setArg h2, hasPluginConf_setArg h1]
  · rw [if_neg hc] at h
    cases h
    rw [hasPluginConf_removePlugin, if_neg hn]

theorem pluginArg_nfsStep_other {p : ProdParams} {dj dj' : DockJson}
    (h : nfsStep p dj = .ok dj') (g' n' k' : String)
    (hn : ¬ (n' = "cp_built_image_to_nfs")) :
    pluginArg dj' g' n' k' = pluginArg dj g' n' k' := by
  unfold nfsStep at h
  by_cases hc : optTruthy p.nfsServerPath = true
  · rw [if_pos hc] at h
    rw [except_bind_ok] at h
    obtain ⟨dj1, h1, h2⟩ := h
    rw [pluginArg_setArg_other h2 _ _ _ (fun hh => hn hh.2.1),
      pluginArg_setArg_other h1 _ _ _ (fun hh => hn hh.2.1)]
  · rw [if_neg hc] at h
    cases h
    rw [pluginArg_removePlugin, if_neg (fun hh => hn hh.2)]

theorem pulpStep_removed {p : ProdParams} {dj : DockJson}
    (h : optTruthy p.pulpRegistry = false) :
    pulpStep p dj = .ok (removePlugin dj "postbuild_plugins" "pulp_push") := by
  unfold pulpStep
  rw [if_neg (by simp [h])]

theorem pulpStep_ok_facts {p : ProdParams} {dj dj' : DockJson}
    (hreg : optTruthy p.pulpRegistry = true)
    (h : pulpStep p dj = .ok dj') :
    pluginArg dj' "postbuild_plugins" "pulp_push" "pulp_registry_name" =
      some (.str (p.pulpRegistry.getD "")) ∧
    (p.pulpSecret = none →
      (pluginArg dj "postbuild_plugins" "pulp_push" "username").isSome = true) ∧
    (∀ g' n' k', ¬ (g' = "postbuild_plugins" ∧ n' = "pulp_push") →
      pluginArg dj' g' n' k' = pluginArg dj g' n' k') ∧
    (∀ g' n', hasPluginConf dj' g' n' = hasPluginConf dj g' n') ∧
    (∀ k', ¬ (k' = "pulp_registry_name") →
      pluginArg dj' "postbuild_plugins" "pulp_push" k' =
        pluginArg dj "postbuild_plugins" "pulp_push" k') := by
  unfold pulpStep at h
  rw [if_pos hreg] at h
  rw [except_bind_ok] at h
  obtain ⟨dj1, h1, h2⟩ := h
  by_cases hsec : p.pulpSecret = none
  · rw [if_pos hsec] at h2
    rw [except_bind_ok] at h2
    obtain ⟨conf, hconf, h3⟩ := h2
    by_cases huser : alHas (conf.args.getD []) "username" = true
    · rw [if_pos huser] at h3
      cases h3
      have husername : (pluginArg dj "postbuild_plugins" "pulp_push" "username").isSome
          = true := by
        rw [alHas_eq_isSome] at huser
        rw [getPluginConf_args hconf "username"] at huser
        rw [← pluginArg_setArg_other h1 "postbuild_plugins" "pulp_push" "username"
          (by simp)]
        exact huser
      exact ⟨pluginArg_setArg_self h1, fun _ => husername,
        fun g' n' k' hh => pluginArg_setArg_other h1 _ _ _ (fun hc => hh ⟨hc.1, hc.2.1⟩),
        fun g' n' => hasPluginConf_setArg h1 g' n',
        fun k' hk => pluginArg_setArg_other h1 _ _ _ (fun hc => hk hc.2.2)⟩
    · rw [if_neg huser] at h3
      cases h3
  · rw [if_neg hsec] at h2
    cases h2
    exact ⟨pluginArg_setArg_self h1, fun hc => absurd hc hsec,
      fun g' n' k' hh => pluginArg_setArg_other h1 _ _ _ (fun hc => hh ⟨hc.1, hc.2.1⟩),
      fun g' n' => hasPluginConf_setArg h1 g' n',
      fun k' hk => pluginArg_setArg_other h1 _ _ _ (fun hc => hk hc.2.2)⟩

theorem pulpStep_noAuth_err {p : ProdParams} {dj : DockJson}
    (hreg : optTruthy p.pulpRegistry = true)
    (hsec : p.pulpSecret = none)
    (hstage : hasPluginConf dj "postbuild_plugins" "pulp_push" = true)
    (huser : pluginArg dj "postbuild_plugins" "pulp_push" "username" = none) :
    pulpStep p dj = .error (.validation "Pulp registry specified but no auth config") := by
  unfold pulpStep
  rw [if_pos hreg]
  obtain ⟨dj1, h1⟩ := setArg_ok_of_has "pulp_registry_name"
    (.str (p.pulpRegistry.getD "")) hstage
  rw [h1]
  have hstage1 : hasPluginConf dj1 "postbuild_plugins" "pulp_push" = true := by
    rw [hasPluginConf_setArg h1]
    exact hstage
  obtain ⟨conf, hconf⟩ := getPluginConf_ok_of_has hstage1
  have huser1 : alHas (conf.args.getD []) "username" = false := by
    rw [alHas_eq_isSome, getPluginConf_args hconf "username",
      pluginArg_setArg_other h1 "postbuild_plugins" "pulp_push" "username" (by simp),
      huser]
    rfl
  simp only [Bind.bind, Except.bind]
  rw [if_pos hsec]
  simp only [Bind.bind, Except.bind, hconf]
  rw [if_neg (by simp [huser1])]

theorem pulpStep_stage_missing_err {p : ProdParams} {dj : DockJson}
    (hreg : optTruthy p.pulpRegistry = true)
    (hstage : hasPluginConf dj "postbuild_plugins" "pulp_push" = false) :
    pulpStep p dj =
      .error (.stageNotFound "postbuild_plugins" "pulp_push") := by
  unfold pulpStep
  rw [if_pos hreg, setArg_err hstage]
  rfl

theorem hasPluginConf_pulpStep_other {p : ProdParams} {dj dj' : DockJson}
    (h : pulpStep p dj = .ok dj') (g' n' : String)
    (hn : ¬ (g' = "postbuild_plugins" ∧ n' = "pulp_push")) :
    hasPluginConf dj' g' n' = hasPluginConf dj g' n' := by
  by_cases hreg : optTruthy p.pulpRegistry = true
  · exact (pulpStep_ok_facts hreg h).2.2.2.1 g' n'
  · rw [pulpStep_removed (Bool.eq_false_iff.mpr hreg)] at h
    cases h
    rw [hasPluginConf_removePlugin, if_neg hn]

theorem pluginArg_pulpStep_other {p : ProdParams} {dj dj' : DockJson}
    (h : pulpStep p dj = .ok dj') (g' n' k' : String)
    (hn : ¬ (n' = "pulp_push")) :
    pluginArg dj' g' n' k' = pluginArg dj g' n' k' := by
  by_cases hreg : optTruthy p.pulpRegistry = true
  · exact (pulpStep_ok_facts hreg h).2.2.1 g' n' k' (fun hh => hn hh.2)
  · rw [pulpStep_removed (Bool.eq_false_iff.mpr hreg)] at h
    cases h
    rw [pluginArg_removePlugin, if_neg (fun hh => hn hh.2)]

theorem hasPluginConf_importImageStep {p : ProdParams} {dj dj' : DockJson}
    (h : importImageStep p dj = .ok dj') (g' n' : String) :
    hasPluginConf dj' g' n' = hasPluginConf dj g' n' := by
  unfold importImageStep at h
  by_cases hc : hasPluginConf dj "postbuild_plugins" "import_image" = true
  · rw [if_pos hc] at h
    rw [except_bind_ok] at h
    obtain ⟨dj1, h1, h⟩ := h
    rw [except_bind_ok] at h
    obtain ⟨dj2, h2, h⟩ := h
    rw [except_bind_ok] at h
    obtain ⟨dj3, h3, h4⟩ := h
    cases hua : p.useAuth with
    | some b =>
      rw [hua] at h4
      rw [hasPluginConf_setArg h4, hasPluginConf_setArg h3, hasPluginConf_setArg h2,
        hasPluginConf_setArg h1]
    | none =>
      rw [hua] at h4
      cases h4
      rw [hasPluginConf_setArg h3, hasPluginConf_setArg h2, hasPluginConf_setArg h1]
  · rw [if_neg hc] at h
    cases h
    rfl

theorem pluginArg_importImageStep_other {p : ProdParams} {dj dj' : DockJson}
    (h : importImageStep p dj = .ok dj') (g' n' k' : String)
    (hn : ¬ (n' = "import_image")) :
    pluginArg dj' g' n' k' = pluginArg dj g' n' k' := by
  unfold importImageStep at h
  by_cases hc : hasPluginConf dj "postbuild_plugins" "import_image" = true
  · rw [if_pos hc] at h
    rw [except_bind_ok] at h
    obtain ⟨dj1, h1, h⟩ := h
    rw [except_bind_ok] at h
    obtain ⟨dj2, h2, h⟩ := h
    rw [except_bind_ok] at h
    obtain ⟨dj3, h3, h4⟩ := h
    have hne : ∀ kk : String, ¬ (g' = "postbuild_plugins" ∧ n' = "import_image" ∧
        k' = kk) := fun kk hh => hn hh.2.1
    cases hua : p.useAuth with
    | some b =>
      rw [hua] at h4
      rw [pluginArg_setArg_other h4 _ _ _ (hne _), pluginArg_setArg_other h3 _ _ _ (hne _),
        pluginArg_setArg_other h2 _ _ _ (hne _), pluginArg_setArg_other h1 _ _ _ (hne _)]
    | none =>
      rw [hua] at h4
      cases h4
      rw [pluginArg_setArg_other h3 _ _ _ (hne _), pluginArg_setArg_other h2 _ _ _ (hne _),
        pluginArg_setArg_other h1 _ _ _ (hne _)]
  · rw [if_neg hc] at h
    cases h
    rfl

theorem triggerGateStep_none {t : OuterTemplate} {dj : DockJson}
    (h : t.triggers = none) :
    triggerGateStep t dj =
      removePlugin
        (removePlugin
          (removePlugin dj "prebuild_plugins" "check_and_set_rebuild")
          "prebuild_plugins" "bump_release")
        "postbuild_plugins" "import_image" := by
  unfold triggerGateStep
  rw [h]
  rfl

theorem triggerGateStep_cons {t : OuterTemplate} {dj : DockJson} {tr : Trigger}
    {rest : List Trigger} (h : t.triggers = some (tr :: rest)) :
    triggerGateStep t dj = dj := by
  unfold triggerGateStep
  rw [h]
  rfl

theorem versionSecretsPrune_below {osVersion : List Nat} {t : OuterTemplate}
    (h : pyListLt osVersion [1, 0, 6] = true) :
    (versionSecretsPrune osVersion t).strategySecrets = none ∧
    (versionSecretsPrune osVersion t).sourceSecret = t.sourceSecret ∧
    (versionSecretsPrune osVersion t).triggers = t.triggers ∧
    (versionSecretsPrune osVersion t).sourceGitRef = t.sourceGitRef ∧
    (versionSecretsPrune osVersion t).outputToName = t.outputToName := by
  unfold versionSecretsPrune
  rw [if_pos h]
  exact ⟨rfl, rfl, rfl, rfl, rfl⟩

theorem versionSecretsPrune_atOrAbove {osVersion : List Nat} {t : OuterTemplate}
    (h : pyListLt osVersion [1, 0, 6] = false) :
    (versionSecretsPrune osVersion t).sourceSecret = none ∧
    (versionSecretsPrune osVersion t).strategySecrets = t.strategySecrets ∧
    (versionSecretsPrune osVersion t).triggers = t.triggers ∧
    (versionSecretsPrune osVersion t).sourceGitRef = t.sourceGitRef ∧
    (versionSecretsPrune osVersion t).outputToName = t.outputToName := by
  unfold versionSecretsPrune
  rw [if_neg (by simp [h])]
  exact ⟨rfl, rfl, rfl, rfl, rfl⟩

theorem pulpOutputOverride_fields (p : ProdParams) (t : OuterTemplate) :
    (pulpOutputOverride p t).triggers = t.triggers ∧
    (pulpOutputOverride p t).sourceSecret = t.sourceSecret ∧
    (pulpOutputOverride p t).strategySecrets = t.strategySecrets ∧
    (pulpOutputOverride p t).sourceGitRef = t.sourceGitRef := by
  unfold pulpOutputOverride
  by_cases hc : optTruthy p.pulpSecret = true
  · rw [if_pos hc]
    exact ⟨rfl, rfl, rfl, rfl⟩
  · rw [if_neg hc]
    exact ⟨rfl, rfl, rfl, rfl⟩

/-! ### Inversion lemmas for the render functions -/

theorem baseOuterUpdate_triggers (rl : Option (List (String × String)))
    (p : CommonParams) (t : OuterTemplate) :
    (baseOuterUpdate rl p t).triggers = t.triggers := rfl

theorem baseOuterUpdate_sourceSecret (rl : Option (List (String × String)))
    (p : CommonParams) (t : OuterTemplate) :
    (baseOuterUpdate rl p t).sourceSecret = t.sourceSecret := rfl

theorem baseOuterUpdate_strategySecrets (rl : Option (List (String × String)))
    (p : CommonParams) (t : OuterTemplate) :
    (baseOuterUpdate rl p t).strategySecrets = t.strategySecrets := rfl

theorem triggerStamp_none {tag : String} {t : OuterTemplate} (h : t.triggers = none) :
    triggerStamp tag t = .ok t := by
  unfold triggerStamp
  rw [h]

theorem triggerStamp_nil {tag : String} {t : OuterTemplate}
    (h : t.triggers = some []) :
    triggerStamp tag t = .error RErr.indexError := by
  unfold triggerStamp
  rw [h]

theorem triggerStamp_cons {tag : String} {t : OuterTemplate} {tr : Trigger}
    {rest : List Trigger} (h : t.triggers = some (tr :: rest)) :
    triggerStamp tag t =
      .ok { t with triggers := some ({ tr with imageChangeFromName := tag } :: rest) } := by
  unfold triggerStamp
  rw [h]

theorem triggerStamp_ok_inv {tag : String} {t t' : OuterTemplate}
    (h : triggerStamp tag t = .ok t') :
    (t.triggers = none ∧ t' = t) ∨
    (∃ tr rest, t.triggers = some (tr :: rest) ∧
      t' = { t with triggers := some ({ tr with imageChangeFromName := tag } :: rest) }) := by
  cases htr : t.triggers with
  | none =>
    rw [triggerStamp_none htr] at h
    exact Or.inl ⟨rfl, (Except.ok.inj h).symm⟩
  | some l =>
    cases l with
    | nil =>
      rw [triggerStamp_nil htr] at h
      cases h
    | cons tr rest =>
      rw [triggerStamp_cons htr] at h
      exact Or.inr ⟨tr, rest, rfl, (Except.ok.inj h).symm⟩

theorem commonRender_ok_inv {osv : List Nat} {rl : Option (List (String × String))}
    {p : CommonParams} {t0 : OuterTemplate} {dj0 : DockJson} {t' : OuterTemplate}
    {dj' : DockJson} (h : commonRender osv rl p t0 dj0 = .ok (t', dj')) :
    ∃ t1 dj1 dj2 dj3,
      triggerStamp p.triggerImagestreamtag (baseOuterUpdate rl p t0) = .ok t1 ∧
      yumRepoStep p dj0 = .ok dj1 ∧
      rebuildStep p dj1 = .ok dj2 ∧
      useAuthStep p dj2 = .ok dj3 ∧
      t' = versionSecretsPrune osv t1 ∧ dj' = dj3 := by
  unfold commonRender at h
  rw [except_bind_ok] at h
  obtain ⟨t1, ht1, h⟩ := h
  rw [except_bind_ok] at h
  obtain ⟨dj1, hdj1, h⟩ := h
  rw [except_bind_ok] at h
  obtain ⟨dj2, hdj2, h⟩ := h
  rw [except_bind_ok] at h
  obtain ⟨dj3, hdj3, h⟩ := h
  have hpair : ((versionSecretsPrune osv t1, dj3) : OuterTemplate × DockJson) =
      (t', dj') := Except.ok.inj h
  exact ⟨t1, dj1, dj2, dj3, ht1, hdj1, hdj2, hdj3,
    (Prod.mk.inj hpair).1.symm, (Prod.mk.inj hpair).2.symm⟩

theorem commonRender_err_emptyTriggers {osv : List Nat}
    {rl : Option (List (String × String))} {p : CommonParams} {t0 : OuterTemplate}
    {dj0 : DockJson} (h : t0.triggers = some []) :
    commonRender osv rl p t0 dj0 = .error RErr.indexError := by
  unfold commonRender
  have hts : triggerStamp p.triggerImagestreamtag (baseOuterUpdate rl p t0) =
      .error RErr.indexError :=
    triggerStamp_nil ((baseOuterUpdate_triggers rl p t0).trans h)
  dsimp only
  rw [hts]
  rfl

theorem prodRender_ok_inv {osv : List Nat} {rl : Option (List (String × String))}
    {p : ProdParams} {t0 : OuterTemplate} {dj0 : DockJson} {res : RenderResult}
    (h : prodRender osv rl p t0 dj0 = .ok res) :
    ∃ t1 dj1 dj2 dj3 dj4 dj5 dj7 t2 dj8 t3 dj9 dj10 dj11 dj12,
      commonRender osv rl p.toCommonParams t0 dj0 = .ok (t1, dj1) ∧
      setArg dj1 "prebuild_plugins" "distgit_fetch_artefacts" "command"
        (.str p.sourcesCommand) = .ok dj2 ∧
      setArg dj2 "prebuild_plugins" "pull_base_image" "parent_registry"
        (.str p.registryUri) = .ok dj3 ∧
      mergeArg dj3 "prebuild_plugins" "add_labels_in_dockerfile" "labels"
        (implicitLabels p) = .ok dj4 ∧
      trySetArgFallback dj4 "store_metadata_in_osv3" "url" (.str p.openshiftUri) =
        .ok dj5 ∧
      kojiStep p (triggerGateStep t1 dj5) = .ok dj7 ∧
      bumpReleaseStep p t1 dj7 = .ok (t2, dj8) ∧
      setSecrets t2 dj8 (prodSecretsMap p) = .ok (t3, dj9) ∧
      nfsStep p dj9 = .ok dj10 ∧
      pulpStep p dj10 = .ok dj11 ∧
      importImageStep p dj11 = .ok dj12 ∧
      res = RenderResult.mk (pulpOutputOverride p t3) dj12 := by
  unfold prodRender at h
  rw [except_bind_ok] at h
  obtain ⟨x, hx, h⟩ := h
  obtain ⟨t1, dj1⟩ := x
  simp only at h
  rw [except_bind_ok] at h
  obtain ⟨dj2, hdj2, h⟩ := h
  rw [except_bind_ok] at h
  obtain ⟨dj3, hdj3, h⟩ := h
  rw [except_bind_ok] at h
  obtain ⟨dj4, hdj4, h⟩ := h
  rw [except_bind_ok] at h
  obtain ⟨dj5, hdj5, h⟩ := h
  rw [except_bind_ok] at h
  obtain ⟨dj7, hdj7, h⟩ := h
  rw [except_bind_ok] at h
  obtain ⟨y, hy, h⟩ := h
  obtain ⟨t2, dj8⟩ := y
  simp only at h
  rw [except_bind_ok] at h
  obtain ⟨z, hz, h⟩ := h
  obtain ⟨t3, dj9⟩ := z
  simp only at h
  rw [except_bind_ok] at h
  obtain ⟨dj10, hdj10, h⟩ := h
  rw [except_bind_ok] at h
  obtain ⟨dj11, hdj11, h⟩ := h
  rw [except_bind_ok] at h
  obtain ⟨dj12, hdj12, h⟩ := h
  exact ⟨t1, dj1, dj2, dj3, dj4, dj5, dj7, t2, dj8, t3, dj9, dj10, dj11, dj12,
    hx, hdj2, hdj3, hdj4, hdj5, hdj7, hy, hz, hdj10, hdj11, hdj12,
    (Except.ok.inj h).symm⟩

theorem prodRender_err_of_common {osv : List Nat}
    {rl : Option (List (String × String))} {p : ProdParams} {t0 : OuterTemplate}
    {dj0 : DockJson} {e : RErr}
    (h : commonRender osv rl p.toCommonParams t0 dj0 = .error e) :
    prodRender osv rl p t0 dj0 = .error e := by
  unfold prodRender
  rw [h]
  rfl

theorem simpleRender_ok_inv {osv : List Nat} {rl : Option (List (String × String))}
    {p : CommonParams} {t0 : OuterTemplate} {dj0 : DockJson} {res : RenderResult}
    (h : simpleRender osv rl p t0 dj0 = .ok res) :
    ∃ t1 dj1 dj2,
      commonRender osv rl p t0 dj0 = .ok (t1, dj1) ∧
      trySetArgFallback dj1 "store_metadata_in_osv3" "url" (.str p.openshiftUri) =
        .ok dj2 ∧
      res = RenderResult.mk t1 dj2 := by
  unfold simpleRender at h
  rw [except_bind_ok] at h
  obtain ⟨x, hx, h⟩ := h
  obtain ⟨t1, dj1⟩ := x
  simp only at h
  rw [except_bind_ok] at h
  obtain ⟨dj2, hdj2, h⟩ := h
  exact ⟨t1, dj1, dj2, hx, hdj2, (Except.ok.inj h).symm⟩

theorem simpleRender_err_of_common {osv : List Nat}
    {rl : Option (List (String × String))} {p : CommonParams} {t0 : OuterTemplate}
    {dj0 : DockJson} {e : RErr}
    (h : commonRender osv rl p t0 dj0 = .error e) :
    simpleRender osv rl p t0 dj0 = .error e := by
  unfold simpleRender
  rw [h]
  rfl

/-! ### Derived facts about whole renders -/

theorem hasPluginConf_bumpReleaseStep {p : ProdParams} {t t' : OuterTemplate}
    {dj dj' : DockJson} (h : bumpReleaseStep p t dj = .ok (t', dj')) (g' n' : String) :
    hasPluginConf dj' g' n' = hasPluginConf dj g' n' := by
  by_cases hb : hasPluginConf dj "prebuild_plugins" "bump_release" = true
  · exact (bumpReleaseStep_present hb h).2.2.2.2 g' n'
  · rw [bumpReleaseStep_absent (Bool.eq_false_iff.mpr hb)] at h
    have hpair : ((t, dj) : OuterTemplate × DockJson) = (t', dj') := Except.ok.inj h
    rw [← (Prod.mk.inj hpair).2]

theorem bumpReleaseStep_tmplFields {p : ProdParams} {t t' : OuterTemplate}
    {dj dj' : DockJson} (h : bumpReleaseStep p t dj = .ok (t', dj')) :
    t'.triggers = t.triggers ∧ t'.sourceSecret = t.sourceSecret ∧
    t'.strategySecrets = t.strategySecrets ∧ t'.outputToName = t.outputToName := by
  by_cases hb : hasPluginConf dj "prebuild_plugins" "bump_release" = true
  · rw [(bumpReleaseStep_present hb h).1]
    exact ⟨rfl, rfl, rfl, rfl⟩
  · rw [bumpReleaseStep_absent (Bool.eq_false_iff.mpr hb)] at h
    have hpair : ((t, dj) : OuterTemplate × DockJson) = (t', dj') := Except.ok.inj h
    rw [← (Prod.mk.inj hpair).1]
    exact ⟨rfl, rfl, rfl, rfl⟩

theorem pluginArg_yumRepoStep_other {p : CommonParams} {dj dj' : DockJson}
    (h : yumRepoStep p dj = .ok dj') (g' n' k' : String)
    (hn : ¬ (n' = "add_yum_repo_by_url")) :
    pluginArg dj' g' n' k' = pluginArg dj g' n' k' := by
  unfold yumRepoStep at h
  by_cases hc : (p.yumRepourls.isSome &&
      hasPluginConf dj "prebuild_plugins" "add_yum_repo_by_url") = true
  · rw [if_pos hc] at h
    exact pluginArg_setArg_other h _ _ _ (fun hh => hn hh.2.1)
  · rw [if_neg hc] at h
    cases h
    rfl

theorem pluginArg_rebuildStep_other {p : CommonParams} {dj dj' : DockJson}
    (h : rebuildStep p dj = .ok dj') (g' n' k' : String)
    (hn : ¬ (n' = "check_and_set_rebuild")) :
    pluginArg dj' g' n' k' = pluginArg dj g' n' k' := by
  unfold rebuildStep at h
  by_cases hc : hasPluginConf dj "prebuild_plugins" "check_and_set_rebuild" = true
  · rw [if_pos hc] at h
    rw [except_bind_ok] at h
    obtain ⟨dj1, h1, h2⟩ := h
    cases hua : p.useAuth with
    | some b =>
      rw [hua] at h2
      rw [pluginArg_setArg_other h2 _ _ _ (fun hh => hn hh.2.1),
        pluginArg_setArg_other h1 _ _ _ (fun hh => hn hh.2.1)]
    | none =>
      rw [hua] at h2
      cases h2
      exact pluginArg_setArg_other h1 _ _ _ (fun hh => hn hh.2.1)
  · rw [if_neg hc] at h
    cases h
    rfl

theorem pluginArg_useAuthStep_other {p : CommonParams} {dj dj' : DockJson}
    (h : useAuthStep p dj = .ok dj') (g' n' k' : String)
    (hn : ¬ (n' = "store_metadata_in_osv3")) :
    pluginArg dj' g' n' k' = pluginArg dj g' n' k' := by
  unfold useAuthStep at h
  cases hua : p.useAuth with
  | some b =>
    rw [hua] at h
    exact pluginArg_trySetArgFallback_other h _ _ _ hn
  | none =>
    rw [hua] at h
    cases h
    rfl

theorem commonRender_presence {osv : List Nat} {rl : Option (List (String × String))}
    {p : CommonParams} {t0 : OuterTemplate} {dj0 : DockJson} {t' : OuterTemplate}
    {dj' : DockJson} (h : commonRender osv rl p t0 dj0 = .ok (t', dj')) (g n : String) :
    hasPluginConf dj' g n = hasPluginConf dj0 g n := by
  obtain ⟨t1, dj1, dj2, dj3, -, h1, h2, h3, -, rfl⟩ := commonRender_ok_inv h
  rw [hasPluginConf_useAuthStep h3, hasPluginConf_rebuildStep h2,
    hasPluginConf_yumRepoStep h1]

theorem commonRender_pluginArg_other {osv : List Nat}
    {rl : Option (List (String × String))} {p : CommonParams} {t0 : OuterTemplate}
    {dj0 : DockJson} {t' : OuterTemplate} {dj' : DockJson}
    (h : commonRender osv rl p t0 dj0 = .ok (t', dj')) (g n k : String)
    (h1 : ¬ (n = "add_yum_repo_by_url")) (h2 : ¬ (n = "check_and_set_rebuild"))
    (h3 : ¬ (n = "store_metadata_in_osv3")) :
    pluginArg dj' g n k = pluginArg dj0 g n k := by
  obtain ⟨t1, dj1, dj2, dj3, -, hs1, hs2, hs3, -, rfl⟩ := commonRender_ok_inv h
  rw [pluginArg_useAuthStep_other hs3 _ _ _ h3, pluginArg_rebuildStep_other hs2 _ _ _ h2,
    pluginArg_yumRepoStep_other hs1 _ _ _ h1]

theorem commonRender_triggers {osv : List Nat} {rl : Option (List (String × String))}
    {p : CommonParams} {t0 : OuterTemplate} {dj0 : DockJson} {t' : OuterTemplate}
    {dj' : DockJson} (h : commonRender osv rl p t0 dj0 = .ok (t', dj')) :
    (t0.triggers = none → t'.triggers = none) ∧
    (∀ tr rest, t0.triggers = some (tr :: rest) →
      t'.triggers =
        some ({ tr with imageChangeFromName := p.triggerImagestreamtag } :: rest)) := by
  obtain ⟨t1, dj1, dj2, dj3, ht1, -, -, -, rfl, -⟩ := commonRender_ok_inv h
  have hbase : (baseOuterUpdate rl p t0).triggers = t0.triggers :=
    baseOuterUpdate_triggers rl p t0
  have hprune : ∀ tx : OuterTemplate, (versionSecretsPrune osv tx).triggers = tx.triggers := by
    intro tx
    unfold versionSecretsPrune
    by_cases hc : pyListLt osv [1, 0, 6] = true
    · rw [if_pos hc]
    · rw [if_neg hc]
  rcases triggerStamp_ok_inv ht1 with ⟨hnone, rfl⟩ | ⟨tr, rest, hcons, rfl⟩
  · constructor
    · intro _
      rw [hprune]
      exact hnone
    · intro tr rest hsome
      rw [hbase, hsome] at hnone
      cases hnone
  · constructor
    · intro hn
      rw [hbase, hn] at hcons
      cases hcons
    · intro tr' rest' hsome
      rw [hbase, hsome] at hcons
      have hinj := List.cons.inj (Option.some.inj hcons)
      obtain ⟨htr, hrest⟩ := hinj
      subst htr
      subst hrest
      rw [hprune]

theorem commonRender_secretFields {osv : List Nat}
    {rl : Option (List (String × String))} {p : CommonParams} {t0 : OuterTemplate}
    {dj0 : DockJson} {t' : OuterTemplate} {dj' : DockJson}
    (h : commonRender osv rl p t0 dj0 = .ok (t', dj')) :
    (pyListLt osv [1, 0, 6] = true → t'.strategySecrets = none) ∧
    (pyListLt osv [1, 0, 6] = false → t'.sourceSecret = none) := by
  obtain ⟨t1, dj1, dj2, dj3, -, -, -, -, rfl, -⟩ := commonRender_ok_inv h
  constructor
  · intro hv
    exact (versionSecretsPrune_below hv).1
  · intro hv
    exact (versionSecretsPrune_atOrAbove hv).1

theorem triggerGateStep_none_presence {t : OuterTemplate} {dj : DockJson}
    (h : t.triggers = none) :
    hasPluginConf (triggerGateStep t dj) "prebuild_plugins" "check_and_set_rebuild"
      = false ∧
    hasPluginConf (triggerGateStep t dj) "prebuild_plugins" "bump_release" = false ∧
    hasPluginConf (triggerGateStep t dj) "postbuild_plugins" "import_image" = false := by
  rw [triggerGateStep_none h]
  refine ⟨?_, ?_, ?_⟩
  · rw [hasPluginConf_removePlugin, if_neg (by decide), hasPluginConf_removePlugin,
      if_neg (by decide), hasPluginConf_removePlugin, if_pos (by decide)]
  · rw [hasPluginConf_removePlugin, if_neg (by decide), hasPluginConf_removePlugin,
      if_pos (by decide)]
  · rw [hasPluginConf_removePlugin, if_pos (by decide)]

theorem triggerGateStep_presence_other {t : OuterTemplate} {dj : DockJson}
    (g n : String) (h1 : ¬ (n = "check_and_set_rebuild")) (h2 : ¬ (n = "bump_release"))
    (h3 : ¬ (n = "import_image")) :
    hasPluginConf (triggerGateStep t dj) g n = hasPluginConf dj g n := by
  unfold triggerGateStep
  by_cases hc : (t.triggers.getD []).length = 0
  · rw [if_pos hc, hasPluginConf_removePlugin, if_neg (fun hh => h3 hh.2),
      hasPluginConf_removePlugin, if_neg (fun hh => h2 hh.2),
      hasPluginConf_removePlugin, if_neg (fun hh => h1 hh.2)]
  · rw [if_neg hc]

theorem triggerGateStep_pluginArg_other {t : OuterTemplate} {dj : DockJson}
    (g n k : String) (h1 : ¬ (n = "check_and_set_rebuild"))
    (h2 : ¬ (n = "bump_release")) (h3 : ¬ (n = "import_image")) :
    pluginArg (triggerGateStep t dj) g n k = pluginArg dj g n k := by
  unfold triggerGateStep
  by_cases hc : (t.triggers.getD []).length = 0
  · rw [if_pos hc, pluginArg_removePlugin, if_neg (fun hh => h3 hh.2),
      pluginArg_removePlugin, if_neg (fun hh => h2 hh.2),
      pluginArg_removePlugin, if_neg (fun hh => h1 hh.2)]
  · rw [if_neg hc]

/-- The secrets mapping of the production render never addresses a stage
argument outside the pulp-push secret path and the sendmail secret path. -/
theorem prodSecretsMap_targets (p : ProdParams) {g₀ n₀ k₀ : String}
    (hpulp : ¬ (g₀ = "postbuild_plugins" ∧ n₀ = "pulp_push" ∧ k₀ = "pulp_secret_path"))
    (hpdc : ¬ (g₀ = "exit_plugins" ∧ n₀ = "sendmail" ∧ k₀ = "pdc_secret_path")) :
    ∀ e ∈ prodSecretsMap p, ∀ g1 n1 a1, e.1 = SKey.tup [g1, n1, a1] →
      ¬ (g1 = g₀ ∧ n1 = n₀ ∧ a1 = k₀) := by
  intro e he g1 n1 a1 hk
  simp only [prodSecretsMap, List.mem_cons, List.not_mem_nil, or_false] at he
  rcases he with he | he
  · rw [he] at hk
    simp only at hk
    have hinj := List.cons.inj (SKey.tup.inj hk)
    obtain ⟨hg, hrest⟩ := hinj
    have hinj2 := List.cons.inj hrest
    obtain ⟨hn, hrest2⟩ := hinj2
    have ha := (List.cons.inj hrest2).1
    subst hg
    subst hn
    subst ha
    intro hh
    exact hpulp ⟨hh.1.symm, hh.2.1.symm, hh.2.2.symm⟩
  · rw [he] at hk
    simp only at hk
    have hinj := List.cons.inj (SKey.tup.inj hk)
    obtain ⟨hg, hrest⟩ := hinj
    have hinj2 := List.cons.inj hrest
    obtain ⟨hn, hrest2⟩ := hinj2
    have ha := (List.cons.inj hrest2).1
    subst hg
    subst hn
    subst ha
    intro hh
    exact hpdc ⟨hh.1.symm, hh.2.1.symm, hh.2.2.symm⟩

/-! ### The push-URL rewrite, characterized -/

theorem splitScheme_at_marker {s : List Char} (hs : ∀ c ∈ s, c ≠ ':')
    (r : List Char) :
    splitScheme (s ++ ':' :: '/' :: '/' :: r) = some (s, r) := by
  induction s with
  | nil =>
    rw [List.nil_append]
    show splitScheme (':' :: '/' :: '/' :: r) = some ([], r)
    unfold splitScheme
    rw [if_pos ⟨rfl, rfl⟩]
    rfl
  | cons c cs ih =>
    have hc : c ≠ ':' := hs c (List.mem_cons_self _ _)
    have htl : ∀ x ∈ cs, x ≠ ':' := fun x hx => hs x (List.mem_cons_of_mem _ hx)
    rw [List.cons_append]
    show (if c = ':' ∧ (cs ++ ':' :: '/' :: '/' :: r).take 2 = ['/', '/'] then
        some ([], (cs ++ ':' :: '/' :: '/' :: r).drop 2)
      else (splitScheme (cs ++ ':' :: '/' :: '/' :: r)).map
        (fun p => (c :: p.1, p.2))) = some (c :: cs, r)
    rw [if_neg (fun hh => hc hh.1), ih htl]
    rfl

theorem takeWhile_marker {nl r : List Char} (hn : ∀ c ∈ nl, netlocChar c = true)
    (hr : r = [] ∨ ∃ c cs, r = c :: cs ∧ netlocChar c = false) :
    (nl ++ r).takeWhile netlocChar = nl ∧ (nl ++ r).dropWhile netlocChar = r := by
  induction nl with
  | nil =>
    rcases hr with rfl | ⟨c, cs, rfl, hc⟩
    · exact ⟨rfl, rfl⟩
    · rw [List.nil_append]
      constructor
      · rw [List.takeWhile_cons, if_neg (by rw [hc]; exact Bool.false_ne_true)]
      · rw [List.dropWhile_cons, if_neg (by rw [hc]; exact Bool.false_ne_true)]
  | cons c cs ih =>
    have hc : netlocChar c = true := hn c (List.mem_cons_self _ _)
    have htl : ∀ x ∈ cs, netlocChar x = true :=
      fun x hx => hn x (List.mem_cons_of_mem _ hx)
    obtain ⟨iht, ihd⟩ := ih htl
    rw [List.cons_append]
    constructor
    · rw [List.takeWhile_cons, if_pos hc, iht]
    · rw [List.dropWhile_cons, if_pos hc, ihd]

theorem string_mk_data (s : String) : String.mk s.data = s := by
  cases s
  rfl

theorem string_data_append (a b : String) : (a ++ b).data = a.data ++ b.data := rfl

theorem pyUrlsplit_spec {scheme netloc rest : String}
    (hs : ∀ c ∈ scheme.data, c ≠ ':')
    (hn : ∀ c ∈ netloc.data, netlocChar c = true)
    (hr : rest.data = [] ∨ ∃ c cs, rest.data = c :: cs ∧ netlocChar c = false) :
    pyUrlsplit (scheme ++ "://" ++ netloc ++ rest) = (scheme, netloc, rest) := by
  unfold pyUrlsplit
  have hdata : (scheme ++ "://" ++ netloc ++ rest).data =
      scheme.data ++ ':' :: '/' :: '/' :: (netloc.data ++ rest.data) := by
    show ((scheme.data ++ [':', '/', '/']) ++ netloc.data) ++ rest.data =
      scheme.data ++ ':' :: '/' :: '/' :: (netloc.data ++ rest.data)
    simp [List.append_assoc]
  rw [hdata, splitScheme_at_marker hs]
  obtain ⟨ht, hd⟩ := takeWhile_marker hn hr
  show (String.mk scheme.data,
      String.mk ((netloc.data ++ rest.data).takeWhile netlocChar),
      String.mk ((netloc.data ++ rest.data).dropWhile netlocChar)) =
    (scheme, netloc, rest)
  rw [ht, hd]

theorem pyAfterAt_noUserinfo {s : String} (h : ∀ c ∈ s.data, c ≠ '@') :
    pyAfterAt s = s := by
  unfold pyAfterAt
  have hdrop : s.data.dropWhile (fun c => c ≠ '@') = [] := by
    rw [List.dropWhile_eq_nil_iff]
    intro x hx
    simp [h x hx]
  rw [hdrop]

theorem dropWhile_to_at {ui : List Char} (h : ∀ c ∈ ui, c ≠ '@')
    (host : List Char) :
    (ui ++ '@' :: host).dropWhile (fun c => c ≠ '@') = '@' :: host := by
  induction ui with
  | nil =>
    rw [List.nil_append, List.dropWhile_cons, if_neg (by simp)]
  | cons c cs ih =>
    have hc : c ≠ '@' := h c (List.mem_cons_self _ _)
    have htl : ∀ x ∈ cs, x ≠ '@' := fun x hx => h x (List.mem_cons_of_mem _ hx)
    rw [List.cons_append, List.dropWhile_cons, if_pos (by simp [hc])]
    exact ih htl

theorem pyAfterAt_userinfo {ui host : String} (h : ∀ c ∈ ui.data, c ≠ '@') :
    pyAfterAt (ui ++ "@" ++ host) = host := by
  unfold pyAfterAt
  have hdata : (ui ++ "@" ++ host).data = ui.data ++ '@' :: host.data := by
    show (ui.data ++ ['@']) ++ host.data = ui.data ++ '@' :: host.data
    simp [List.append_assoc]
  rw [hdata, dropWhile_to_at h host.data]

theorem rewritePushUrl_spec {user scheme netloc rest host : String}
    (hs0 : scheme ≠ "")
    (hs : ∀ c ∈ scheme.data, c ≠ ':')
    (hn : ∀ c ∈ netloc.data, netlocChar c = true)
    (hr : rest.data = [] ∨ ∃ c cs, rest.data = c :: cs ∧ netlocChar c = false)
    (hh : (netloc = host ∧ ∀ c ∈ host.data, c ≠ '@') ∨
          (∃ ui, netloc = ui ++ "@" ++ host ∧ ∀ c ∈ ui.data, c ≠ '@')) :
    rewritePushUrl user (scheme ++ "://" ++ netloc ++ rest) =
      scheme ++ "://" ++ user ++ "@" ++ host ++ rest := by
  have hafter : pyAfterAt netloc = host := by
    rcases hh with ⟨rfl, hhost⟩ | ⟨ui, rfl, hui⟩
    · exact pyAfterAt_noUserinfo hhost
    · exact pyAfterAt_userinfo hui
  unfold rewritePushUrl
  rw [pyUrlsplit_spec hs hn hr]
  show pyUrlunsplit scheme (user ++ "@" ++ pyAfterAt netloc) rest =
    scheme ++ "://" ++ user ++ "@" ++ host ++ rest
  unfold pyUrlunsplit
  rw [if_pos hs0, hafter]
  apply String.ext
  simp [string_data_append, List.append_assoc]

/-- Stage presence is unchanged from the trigger-gate output to the final
pipeline, for stages the later steps never remove. -/
theorem presence_after_gate {p : ProdParams} {t1 t2 t3 : OuterTemplate}
    {dj6 dj7 dj8 dj9 dj10 dj11 dj12 : DockJson}
    (h7 : kojiStep p dj6 = .ok dj7)
    (hy : bumpReleaseStep p t1 dj7 = .ok (t2, dj8))
    (hz : setSecrets t2 dj8 (prodSecretsMap p) = .ok (t3, dj9))
    (h10 : nfsStep p dj9 = .ok dj10)
    (h11 : pulpStep p dj10 = .ok dj11)
    (h12 : importImageStep p dj11 = .ok dj12)
    (g n : String) (hn1 : ¬ (g = "prebuild_plugins" ∧ n = "koji"))
    (hn2 : ¬ (g = "postbuild_plugins" ∧ n = "cp_built_image_to_nfs"))
    (hn3 : ¬ (g = "postbuild_plugins" ∧ n = "pulp_push")) :
    hasPluginConf dj12 g n = hasPluginConf dj6 g n := by
  rw [hasPluginConf_importImageStep h12, hasPluginConf_pulpStep_other h11 _ _ hn3,
    hasPluginConf_nfsStep_other h10 _ _ hn2, setSecrets_presence hz,
    hasPluginConf_bumpReleaseStep hy, hasPluginConf_kojiStep_other h7 _ _ hn1]

/-- A stage argument is unchanged from the release-bump output to the
final pipeline, for stages the later steps never touch. -/
theorem pluginArg_after_bump {p : ProdParams} {t2 t3 : OuterTemplate}
    {dj8 dj9 dj10 dj11 dj12 : DockJson}
    (hz : setSecrets t2 dj8 (prodSecretsMap p) = .ok (t3, dj9))
    (h10 : nfsStep p dj9 = .ok dj10)
    (h11 : pulpStep p dj10 = .ok dj11)
    (h12 : importImageStep p dj11 = .ok dj12)
    (g n k : String)
    (hn1 : ¬ (n = "cp_built_image_to_nfs")) (hn2 : ¬ (n = "pulp_push"))
    (hn3 : ¬ (n = "import_image")) (hn4 : ¬ (n = "sendmail")) :
    pluginArg dj12 g n k = pluginArg dj8 g n k := by
  rw [pluginArg_importImageStep_other h12 _ _ _ hn3,
    pluginArg_pulpStep_other h11 _ _ _ hn2,
    pluginArg_nfsStep_other h10 _ _ _ hn1,
    setSecrets_pluginArg_other
      (prodSecretsMap_targets p (fun hh => hn2 hh.2.1) (fun hh => hn4 hh.2.1)) hz]

/-- Stage presence is unchanged from the input pipeline to the output of
the production steps before the trigger gate. -/
theorem presence_common_chain {osv : List Nat} {rl : Option (List (String × String))}
    {p : ProdParams} {t0 t1 : OuterTemplate} {dj0 dj1 dj2 dj3 dj4 dj5 : DockJson}
    (hx : commonRender osv rl p.toCommonParams t0 dj0 = .ok (t1, dj1))
    (h2 : setArg dj1 "prebuild_plugins" "distgit_fetch_artefacts" "command"
      (.str p.sourcesCommand) = .ok dj2)
    (h3 : setArg dj2 "prebuild_plugins" "pull_base_image" "parent_registry"
      (.str p.registryUri) = .ok dj3)
    (h4 : mergeArg dj3 "prebuild_plugins" "add_labels_in_dockerfile" "labels"
      (implicitLabels p) = .ok dj4)
    (h5 : trySetArgFallback dj4 "store_metadata_in_osv3" "url" (.str p.openshiftUri) =
      .ok dj5)
    (g n : String) :
    hasPluginConf dj5 g n = hasPluginConf dj0 g n := by
  rw [hasPluginConf_trySetArgFallback h5, hasPluginConf_mergeArg h4,
    hasPluginConf_setArg h3, hasPluginConf_setArg h2, commonRender_presence hx]

/-! ### The claims -/

/-- C1. For every production render whose loaded outer template declares
zero triggers, the rendered pipeline contains none of the
rebuild-detection, release-bump and image-import stages; for every render
whose template declares an image-change trigger, all three stages are
preserved and the first trigger's `imageChange.from.name` equals the
configured base-image image-stream-tag. -/
theorem prod_trigger_gating (osv : List Nat) (rl : Option (List (String × String)))
    (p : ProdParams) (t0 : OuterTemplate) (dj0 : DockJson) :
    (t0.triggers = none →
      ∀ res, prodRender osv rl p t0 dj0 = .ok res →
        hasPluginConf res.pipeline "prebuild_plugins" "check_and_set_rebuild" = false ∧
        hasPluginConf res.pipeline "prebuild_plugins" "bump_release" = false ∧
        hasPluginConf res.pipeline "postbuild_plugins" "import_image" = false) ∧
    (∀ tr rest, t0.triggers = some (tr :: rest) →
      ∀ res, prodRender osv rl p t0 dj0 = .ok res →
        (hasPluginConf res.pipeline "prebuild_plugins" "check_and_set_rebuild" =
          hasPluginConf dj0 "prebuild_plugins" "check_and_set_rebuild") ∧
        (hasPluginConf res.pipeline "prebuild_plugins" "bump_release" =
          hasPluginConf dj0 "prebuild_plugins" "bump_release") ∧
        (hasPluginConf res.pipeline "postbuild_plugins" "import_image" =
          hasPluginConf dj0 "postbuild_plugins" "import_image") ∧
        res.template.triggers =
          some ({ tr with imageChangeFromName := p.triggerImagestreamtag } :: rest)) := by
  constructor
  · intro htr res h
    obtain ⟨t1, dj1, dj2, dj3, dj4, dj5, dj7, t2, dj8, t3, dj9, dj10, dj11, dj12,
      hx, h2, h3, h4, h5, h7, hy, hz, h10, h11, h12, hres⟩ := prodRender_ok_inv h
    have ht1 : t1.triggers = none := (commonRender_triggers hx).1 htr
    have hgate : _ ∧ _ ∧ _ := @triggerGateStep_none_presence t1 dj5 ht1
    have hpipe : res.pipeline = dj12 := by rw [hres]
    rw [hpipe]
    refine ⟨?_, ?_, ?_⟩
    · rw [presence_after_gate h7 hy hz h10 h11 h12 _ _ (by simp) (by simp) (by simp)]
      exact hgate.1
    · rw [presence_after_gate h7 hy hz h10 h11 h12 _ _ (by simp) (by simp) (by simp)]
      exact hgate.2.1
    · rw [presence_after_gate h7 hy hz h10 h11 h12 _ _ (by simp) (by simp) (by simp)]
      exact hgate.2.2
  · intro tr rest htr res h
    obtain ⟨t1, dj1, dj2, dj3, dj4, dj5, dj7, t2, dj8, t3, dj9, dj10, dj11, dj12,
      hx, h2, h3, h4, h5, h7, hy, hz, h10, h11, h12, hres⟩ := prodRender_ok_inv h
    have ht1 : t1.triggers =
        some ({ tr with imageChangeFromName := p.triggerImagestreamtag } :: rest) :=
      (commonRender_triggers hx).2 tr rest htr
    have hgate : triggerGateStep t1 dj5 = dj5 := triggerGateStep_cons ht1
    have hpipe : res.pipeline = dj12 := by rw [hres]
    have htmpl : res.template = pulpOutputOverride p t3 := by rw [hres]
    have hchain : ∀ g n, ¬ (g = "prebuild_plugins" ∧ n = "koji") →
        ¬ (g = "postbuild_plugins" ∧ n = "cp_built_image_to_nfs") →
        ¬ (g = "postbuild_plugins" ∧ n = "pulp_push") →
        hasPluginConf dj12 g n = hasPluginConf dj0 g n := by
      intro g n c1 c2 c3
      rw [presence_after_gate h7 hy hz h10 h11 h12 _ _ c1 c2 c3, hgate,
        presence_common_chain hx h2 h3 h4 h5]
    rw [hpipe, htmpl]
    refine ⟨hchain _ _ (by simp) (by simp) (by simp),
      hchain _ _ (by simp) (by simp) (by simp),
      hchain _ _ (by simp) (by simp) (by simp), ?_⟩
    rw [(pulpOutputOverride_fields p t3).1, (setSecrets_template hz).2.2.1,
      (bumpReleaseStep_tmplFields hy).1, ht1]

/-- C2. For every completed render of any variant, regardless of whether
any secret is configured: below openshift-required-version `[1,0,6]` the
rendered outer descriptor has no secrets-array substructure, and at or
above it the rendered outer descriptor has no `sourceSecret` field; the
deletion branch runs on every render. -/
theorem version_gated_secret_pruning (osv : List Nat)
    (rl : Option (List (String × String))) :
    (∀ (p : ProdParams) (t0 : OuterTemplate) (dj0 : DockJson) (res : RenderResult),
      prodRender osv rl p t0 dj0 = .ok res →
        (pyListLt osv [1, 0, 6] = true → res.template.strategySecrets = none) ∧
        (pyListLt osv [1, 0, 6] = false → res.template.sourceSecret = none)) ∧
    (∀ (q : CommonParams) (t0 : OuterTemplate) (dj0 : DockJson) (res : RenderResult),
      simpleRender osv rl q t0 dj0 = .ok res →
        (pyListLt osv [1, 0, 6] = true → res.template.strategySecrets = none) ∧
        (pyListLt osv [1, 0, 6] = false → res.template.sourceSecret = none)) := by
  constructor
  · intro p t0 dj0 res h
    obtain ⟨t1, dj1, dj2, dj3, dj4, dj5, dj7, t2, dj8, t3, dj9, dj10, dj11, dj12,
      hx, h2, h3, h4, h5, h7, hy, hz, h10, h11, h12, hres⟩ := prodRender_ok_inv h
    have hsec := commonRender_secretFields hx
    have htmpl : res.template = pulpOutputOverride p t3 := by rw [hres]
    constructor
    · intro hv
      rw [htmpl, (pulpOutputOverride_fields p t3).2.2.1]
      exact (setSecrets_template hz).1
        ((bumpReleaseStep_tmplFields hy).2.2.1.trans (hsec.1 hv))
    · intro hv
      rw [htmpl, (pulpOutputOverride_fields p t3).2.1]
      exact (setSecrets_template hz).2.1
        ((bumpReleaseStep_tmplFields hy).2.1.trans (hsec.2 hv))
  · intro q t0 dj0 res h
    obtain ⟨t1, dj1, dj2, hx, h2, hres⟩ := simpleRender_ok_inv h
    have hsec := commonRender_secretFields hx
    have htmpl : res.template = t1 := by rw [hres]
    rw [htmpl]
    exact hsec

/-- C9. Rendering a template whose spec binds `triggers` to an empty list
raises an untyped `IndexError` while stamping the first trigger, so a
render that completes with the zero-trigger stage removal implies the
`triggers` key was absent from the template entirely. -/
theorem empty_triggers_index_error (osv : List Nat)
    (rl : Option (List (String × String))) (p : ProdParams) (q : CommonParams)
    (t0 tS : OuterTemplate) (dj0 djS : DockJson) :
    (t0.triggers = some [] →
      prodRender osv rl p t0 dj0 = .error RErr.indexError) ∧
    (tS.triggers = some [] →
      simpleRender osv rl q tS djS = .error RErr.indexError) ∧
    (∀ res, prodRender osv rl p t0 dj0 = .ok res →
      hasPluginConf dj0 "prebuild_plugins" "check_and_set_rebuild" = true →
      hasPluginConf res.pipeline "prebuild_plugins" "check_and_set_rebuild" = false →
      t0.triggers = none) := by
  refine ⟨?_, ?_, ?_⟩
  · intro htr
    exact prodRender_err_of_common (commonRender_err_emptyTriggers htr)
  · intro htr
    exact simpleRender_err_of_common (commonRender_err_emptyTriggers htr)
  · intro res h hin hout
    cases htr : t0.triggers with
    | none => rfl
    | some l =>
      cases l with
      | nil =>
        rw [prodRender_err_of_common (commonRender_err_emptyTriggers htr)] at h
        cases h
      | cons tr rest =>
        obtain ⟨t1, dj1, dj2, dj3, dj4, dj5, dj7, t2, dj8, t3, dj9, dj10, dj11, dj12,
          hx, h2, h3, h4, h5, h7, hy, hz, h10, h11, h12, hres⟩ := prodRender_ok_inv h
        have ht1 : t1.triggers =
            some ({ tr with imageChangeFromName := p.triggerImagestreamtag } :: rest) :=
          (commonRender_triggers hx).2 tr rest htr
        have hgate : triggerGateStep t1 dj5 = dj5 := triggerGateStep_cons ht1
        have hpipe : res.pipeline = dj12 := by rw [hres]
        rw [hpipe, presence_after_gate h7 hy hz h10 h11 h12 _ _ (by simp) (by simp)
          (by simp), hgate, presence_common_chain hx h2 h3 h4 h5, hin] at hout
        cases hout

theorem pluginArg_bumpReleaseStep_other {p : ProdParams} {t t' : OuterTemplate}
    {dj dj' : DockJson} (h : bumpReleaseStep p t dj = .ok (t', dj')) (g' n' k' : String)
    (hn : ¬ (g' = "prebuild_plugins" ∧ n' = "bump_release")) :
    pluginArg dj' g' n' k' = pluginArg dj g' n' k' := by
  by_cases hb : hasPluginConf dj "prebuild_plugins" "bump_release" = true
  · exact (bumpReleaseStep_present hb h).2.2.2.1 g' n' k' hn
  · rw [bumpReleaseStep_absent (Bool.eq_false_iff.mpr hb)] at h
    have hpair : ((t, dj) : OuterTemplate × DockJson) = (t', dj') := Except.ok.inj h
    rw [← (Prod.mk.inj hpair).2]

/-- A stage argument is unchanged through the common render and the
production prologue, for stages those steps never touch. -/
theorem pluginArg_common_chain {osv : List Nat} {rl : Option (List (String × String))}
    {p : ProdParams} {t0 t1 : OuterTemplate} {dj0 dj1 dj2 dj3 dj4 dj5 : DockJson}
    (hx : commonRender osv rl p.toCommonParams t0 dj0 = .ok (t1, dj1))
    (h2 : setArg dj1 "prebuild_plugins" "distgit_fetch_artefacts" "command"
      (.str p.sourcesCommand) = .ok dj2)
    (h3 : setArg dj2 "prebuild_plugins" "pull_base_image" "parent_registry"
      (.str p.registryUri) = .ok dj3)
    (h4 : mergeArg dj3 "prebuild_plugins" "add_labels_in_dockerfile" "labels"
      (implicitLabels p) = .ok dj4)
    (h5 : trySetArgFallback dj4 "store_metadata_in_osv3" "url" (.str p.openshiftUri) =
      .ok dj5)
    (g n k : String)
    (c1 : ¬ (n = "add_yum_repo_by_url")) (c2 : ¬ (n = "check_and_set_rebuild"))
    (c3 : ¬ (n = "store_metadata_in_osv3")) (c4 : ¬ (n = "distgit_fetch_artefacts"))
    (c5 : ¬ (n = "pull_base_image")) (c6 : ¬ (n = "add_labels_in_dockerfile")) :
    pluginArg dj5 g n k = pluginArg dj0 g n k := by
  rw [pluginArg_trySetArgFallback_other h5 _ _ _ c3,
    pluginArg_mergeArg_other h4 _ _ _ (fun hh => c6 hh.2),
    pluginArg_setArg_other h3 _ _ _ (fun hh => c5 hh.2.1),
    pluginArg_setArg_other h2 _ _ _ (fun hh => c4 hh.2.1),
    commonRender_pluginArg_other hx _ _ _ c1 c2 c3]

/-- C5. For every production render: explicit yum-repo URLs remove the
koji stage regardless of the koji parameters; missing koji parameters also
remove it; otherwise the koji stage's target, root and hub arguments are
set to the three parameter values. -/
theorem koji_vs_repo_exclusivity (osv : List Nat)
    (rl : Option (List (String × String))) (p : ProdParams) (t0 : OuterTemplate)
    (dj0 : DockJson) :
    ∀ res, prodRender osv rl p t0 dj0 = .ok res →
      (listTruthy p.yumRepourls = true →
        hasPluginConf res.pipeline "prebuild_plugins" "koji" = false) ∧
      (listTruthy p.yumRepourls = false →
        (optTruthy p.kojiTarget && optTruthy p.kojiroot && optTruthy p.kojihub) = false →
        hasPluginConf res.pipeline "prebuild_plugins" "koji" = false) ∧
      (listTruthy p.yumRepourls = false →
        (optTruthy p.kojiTarget && optTruthy p.kojiroot && optTruthy p.kojihub) = true →
        pluginArg res.pipeline "prebuild_plugins" "koji" "target" =
          some (.str (p.kojiTarget.getD "")) ∧
        pluginArg res.pipeline "prebuild_plugins" "koji" "root" =
          some (.str (p.kojiroot.getD "")) ∧
        pluginArg res.pipeline "prebuild_plugins" "koji" "hub" =
          some (.str (p.kojihub.getD ""))) := by
  intro res h
  obtain ⟨t1, dj1, dj2, dj3, dj4, dj5, dj7, t2, dj8, t3, dj9, dj10, dj11, dj12,
    hx, h2, h3, h4, h5, h7, hy, hz, h10, h11, h12, hres⟩ := prodRender_ok_inv h
  have hpipe : res.pipeline = dj12 := by rw [hres]
  have hkeep : hasPluginConf dj12 "prebuild_plugins" "koji" =
      hasPluginConf dj7 "prebuild_plugins" "koji" := by
    rw [hasPluginConf_importImageStep h12,
      hasPluginConf_pulpStep_other h11 _ _ (by simp),
      hasPluginConf_nfsStep_other h10 _ _ (by simp),
      setSecrets_presence hz, hasPluginConf_bumpReleaseStep hy]
  have hargs : ∀ k, pluginArg dj12 "prebuild_plugins" "koji" k =
      pluginArg dj7 "prebuild_plugins" "koji" k := by
    intro k
    rw [pluginArg_after_bump hz h10 h11 h12 _ _ _ (by simp) (by simp) (by simp)
      (by simp)]
    exact pluginArg_bumpReleaseStep_other hy _ _ _ (by simp)
  refine ⟨?_, ?_, ?_⟩
  · intro hyum
    rw [kojiStep_removed_yum hyum] at h7
    cases h7
    rw [hpipe, hkeep, hasPluginConf_removePlugin, if_pos ⟨rfl, rfl⟩]
  · intro hyum hk
    rw [kojiStep_removed_missing hyum hk] at h7
    cases h7
    rw [hpipe, hkeep, hasPluginConf_removePlugin, if_pos ⟨rfl, rfl⟩]
  · intro hyum hk
    obtain ⟨ht, hr, hh, -⟩ := kojiStep_configured hyum hk h7
    rw [hpipe]
    exact ⟨(hargs "target").trans ht, (hargs "root").trans hr, (hargs "hub").trans hh⟩

/-- C6. For every production render: with a pulp registry name, the
pulp-push stage's `pulp_registry_name` argument is set to it, and
`OsbsValidationException` is raised when no pulp secret is configured and
the stage's arguments contain no `username` entry; with no pulp registry
name, the pulp-push stage is removed from the pipeline. -/
theorem pulp_push_auth_gate (osv : List Nat)
    (rl : Option (List (String × String))) (p : ProdParams) (t0 : OuterTemplate)
    (dj0 : DockJson) :
    (∀ res, prodRender osv rl p t0 dj0 = .ok res →
      (optTruthy p.pulpRegistry = true →
        pluginArg res.pipeline "postbuild_plugins" "pulp_push" "pulp_registry_name" =
          some (.str (p.pulpRegistry.getD "")) ∧
        (p.pulpSecret = none →
          (pluginArg res.pipeline "postbuild_plugins" "pulp_push" "username").isSome
            = true)) ∧
      (optTruthy p.pulpRegistry = false →
        hasPluginConf res.pipeline "postbuild_plugins" "pulp_push" = false)) ∧
    (∀ dj : DockJson, optTruthy p.pulpRegistry = true → p.pulpSecret = none →
      hasPluginConf dj "postbuild_plugins" "pulp_push" = true →
      pluginArg dj "postbuild_plugins" "pulp_push" "username" = none →
      pulpStep p dj =
        .error (.validation "Pulp registry specified but no auth config")) ∧
    (optTruthy p.pulpRegistry = true → p.pulpSecret = none →
      pluginArg dj0 "postbuild_plugins" "pulp_push" "username" = none →
      ∀ res, prodRender osv rl p t0 dj0 ≠ .ok res) := by
  refine ⟨?_, ?_, ?_⟩
  · intro res h
    obtain ⟨t1, dj1, dj2, dj3, dj4, dj5, dj7, t2, dj8, t3, dj9, dj10, dj11, dj12,
      hx, h2, h3, h4, h5, h7, hy, hz, h10, h11, h12, hres⟩ := prodRender_ok_inv h
    have hpipe : res.pipeline = dj12 := by rw [hres]
    constructor
    · intro hreg
      obtain ⟨hname, huser, -, -, hsame⟩ := pulpStep_ok_facts hreg h11
      constructor
      · rw [hpipe, pluginArg_importImageStep_other h12 _ _ _ (by simp)]
        exact hname
      · intro hsec
        rw [hpipe, pluginArg_importImageStep_other h12 _ _ _ (by simp),
          hsame "username" (by simp)]
        exact huser hsec
    · intro hreg
      rw [pulpStep_removed (Bool.eq_false_iff.mpr (by simp [hreg]))] at h11
      cases h11
      rw [hpipe, hasPluginConf_importImageStep h12, hasPluginConf_removePlugin,
        if_pos ⟨rfl, rfl⟩]
  · intro dj hreg hsec hstage huser
    exact pulpStep_noAuth_err hreg hsec hstage huser
  · intro hreg hsec huser res h
    obtain ⟨t1, dj1, dj2, dj3, dj4, dj5, dj7, t2, dj8, t3, dj9, dj10, dj11, dj12,
      hx, h2, h3, h4, h5, h7, hy, hz, h10, h11, h12, hres⟩ := prodRender_ok_inv h
    have huser10 : pluginArg dj10 "postbuild_plugins" "pulp_push" "username" = none := by
      rw [pluginArg_nfsStep_other h10 _ _ _ (by simp),
        setSecrets_pluginArg_other
          (prodSecretsMap_targets p (by intro hh; exact absurd hh.2.2 (by decide))
            (by intro hh; exact absurd hh.2.1 (by decide))) hz,
        pluginArg_bumpReleaseStep_other hy _ _ _ (by simp),
        pluginArg_kojiStep_other h7 _ _ _ (by simp),
        triggerGateStep_pluginArg_other _ _ _ (by simp) (by simp) (by simp),
        pluginArg_common_chain hx h2 h3 h4 h5 _ _ _ (by simp) (by simp) (by simp)
          (by simp) (by simp) (by simp)]
      exact huser
    by_cases hstage : hasPluginConf dj10 "postbuild_plugins" "pulp_push" = true
    · rw [pulpStep_noAuth_err hreg hsec hstage huser10] at h11
      cases h11
    · rw [pulpStep_stage_missing_err hreg (Bool.eq_false_iff.mpr hstage)] at h11
      cases h11

/-- C4. For every production render where the pipeline declares the
release-bump stage: the rendered outer descriptor's source git ref is the
supplied branch while the stage's `git_ref` argument is the original
commit ref; and when a push URL and push username are both supplied, the
URL's authority is rewritten so the username followed by `@` immediately
precedes the original host, replacing any existing userinfo and altering
no other URL part. -/
theorem bump_release_configuration (osv : List Nat)
    (rl : Option (List (String × String))) (p : ProdParams) (t0 : OuterTemplate)
    (dj0 : DockJson) :
    ∀ res, prodRender osv rl p t0 dj0 = .ok res →
      hasPluginConf res.pipeline "prebuild_plugins" "bump_release" = true →
      res.template.sourceGitRef = p.gitBranch ∧
      pluginArg res.pipeline "prebuild_plugins" "bump_release" "git_ref" =
        some (.str p.gitRef) ∧
      (∀ url user, p.gitPushUrl = some url → p.gitPushUsername = some user →
        pluginArg res.pipeline "prebuild_plugins" "bump_release" "push_url" =
          some (.str (rewritePushUrl user url)) ∧
        (∀ scheme netloc rest host, url = scheme ++ "://" ++ netloc ++ rest →
          scheme ≠ "" → (∀ c ∈ scheme.data, c ≠ ':') →
          (∀ c ∈ netloc.data, netlocChar c = true) →
          (rest.data = [] ∨ ∃ c cs, rest.data = c :: cs ∧ netlocChar c = false) →
          ((netloc = host ∧ ∀ c ∈ host.data, c ≠ '@') ∨
           (∃ ui, netloc = ui ++ "@" ++ host ∧ ∀ c ∈ ui.data, c ≠ '@')) →
          pluginArg res.pipeline "prebuild_plugins" "bump_release" "push_url" =
            some (.str (scheme ++ "://" ++ user ++ "@" ++ host ++ rest)))) := by
  intro res h hbump
  obtain ⟨t1, dj1, dj2, dj3, dj4, dj5, dj7, t2, dj8, t3, dj9, dj10, dj11, dj12,
    hx, h2, h3, h4, h5, h7, hy, hz, h10, h11, h12, hres⟩ := prodRender_ok_inv h
  have hpipe : res.pipeline = dj12 := by rw [hres]
  have htmpl : res.template = pulpOutputOverride p t3 := by rw [hres]
  have hkeep : ∀ k, pluginArg dj12 "prebuild_plugins" "bump_release" k =
      pluginArg dj8 "prebuild_plugins" "bump_release" k := by
    intro k
    exact pluginArg_after_bump hz h10 h11 h12 _ _ _ (by simp) (by simp) (by simp)
      (by simp)
  have hb7 : hasPluginConf dj7 "prebuild_plugins" "bump_release" = true := by
    rw [hpipe] at hbump
    rw [← hbump, hasPluginConf_importImageStep h12,
      hasPluginConf_pulpStep_other h11 _ _ (by simp),
      hasPluginConf_nfsStep_other h10 _ _ (by simp), setSecrets_presence hz,
      hasPluginConf_bumpReleaseStep hy]
  obtain ⟨ht2, hgitref, hpush, -, -⟩ := bumpReleaseStep_present hb7 hy
  refine ⟨?_, ?_, ?_⟩
  · rw [htmpl, (pulpOutputOverride_fields p t3).2.2.2,
      (setSecrets_template hz).2.2.2.2, ht2]
  · rw [hpipe, hkeep]
    exact hgitref
  · intro url user hurl huser
    have hval : pluginArg dj8 "prebuild_plugins" "bump_release" "push_url" =
        some (.str (rewritePushUrl user url)) := hpush url user hurl huser
    constructor
    · rw [hpipe, hkeep]
      exact hval
    · intro scheme netloc rest host hdecomp hs0 hs hn hr hh
      rw [hpipe, hkeep, hval, hdecomp, rewritePushUrl_spec hs0 hs hn hr hh]

/-- C3. For every secrets-mapping entry with a non-null secret name: with
a secrets array in the outer descriptor, a mount with `secretSource.name`
equal to the secret and `mountPath` equal to `<secrets-root>/<secret>` is
appended and the addressed stage argument is set to that mount path;
without one, the legacy `sourceSecret.name` is set, and
`OsbsValidationException` is raised if the `sourceSecret` substructure is
absent; when no entry has a non-null secret name, both secret
substructures are deleted. -/
theorem set_secrets_behaviour :
    (∀ (t : OuterTemplate) (dj dj1 : DockJson) (mounts : List SecretMount)
        (g n a s : String),
      t.strategySecrets = some mounts →
      setArg dj g n a (.str (pyPathJoin SECRETS_PATH s)) = .ok dj1 →
      setSecrets t dj [(SKey.tup [g, n, a], some s)] =
        .ok ({ t with strategySecrets := some (mounts ++ [SecretMount.mk s (pyPathJoin SECRETS_PATH s)]) }, dj1) ∧
      pluginArg dj1 g n a = some (.str (pyPathJoin SECRETS_PATH s))) ∧
    (∀ (t : OuterTemplate) (dj : DockJson) (x : Option String) (g n a s : String),
      t.strategySecrets = none → t.sourceSecret = some x →
      setSecrets t dj [(SKey.tup [g, n, a], some s)] =
        .ok ({ t with sourceSecret := some (some s) }, dj)) ∧
    (∀ (t : OuterTemplate) (dj : DockJson) (g n a s : String),
      t.strategySecrets = none → t.sourceSecret = none →
      setSecrets t dj [(SKey.tup [g, n, a], some s)] =
        .error (.validation "JSON template does not allow secrets")) ∧
    (∀ (t : OuterTemplate) (dj : DockJson) (entries : List (SKey × Option String)),
      (∀ e ∈ entries, (∃ g1 n1 a1, e.1 = SKey.tup [g1, n1, a1]) ∧ e.2 = none) →
      setSecrets t dj entries =
        .ok ({ t with sourceSecret := none, strategySecrets := none }, dj)) := by
  refine ⟨?_, ?_, ?_, ?_⟩
  · intro t dj dj1 mounts g n a s hstrat hset
    have hentry : setSecretsEntry t dj (SKey.tup [g, n, a]) (some s) =
        .inl ({ t with strategySecrets := some (mounts ++ [SecretMount.mk s (pyPathJoin SECRETS_PATH s)]) }, dj1, true) := by
      unfold setSecretsEntry
      rw [hstrat]
      simp only
      rw [hset]
    have hgo : setSecretsGo t dj false [(SKey.tup [g, n, a], some s)] =
        .inl ({ t with strategySecrets := some (mounts ++ [SecretMount.mk s (pyPathJoin SECRETS_PATH s)]) }, dj1, true) := by
      unfold setSecretsGo
      rw [hentry]
      rfl
    constructor
    · unfold setSecrets
      rw [hgo]
      rfl
    · exact pluginArg_setArg_self hset
  · intro t dj x g n a s hstrat hsrc
    have hentry : setSecretsEntry t dj (SKey.tup [g, n, a]) (some s) =
        .inl ({ t with sourceSecret := some (some s) }, dj, true) := by
      unfold setSecretsEntry
      rw [hstrat, hsrc]
    have hgo : setSecretsGo t dj false [(SKey.tup [g, n, a], some s)] =
        .inl ({ t with sourceSecret := some (some s) }, dj, true) := by
      unfold setSecretsGo
      rw [hentry]
      rfl
    unfold setSecrets
    rw [hgo]
    rfl
  · intro t dj g n a s hstrat hsrc
    have hentry : setSecretsEntry t dj (SKey.tup [g, n, a]) (some s) =
        .inr (t, dj, .validation "JSON template does not allow secrets") := by
      unfold setSecretsEntry
      rw [hstrat, hsrc]
    have hgo : setSecretsGo t dj false [(SKey.tup [g, n, a], some s)] =
        .inr (t, dj, .validation "JSON template does not allow secrets") := by
      unfold setSecretsGo
      rw [hentry]
    unfold setSecrets
    rw [hgo]
  · intro t dj entries hval
    unfold setSecrets
    rw [setSecretsGo_all_none entries hval t dj false]
    rfl

/-- C7. The use-auth flag (and the metadata-report URL) is written to the
metadata-reporting stage by first attempting the exit-stage location and,
exactly on a stage-not-found failure there, retrying the legacy
post-build-stage location; a failure of the retry is terminal. -/
theorem metadata_stage_fallback (dj : DockJson) (name key : String) (v : ArgVal) :
    (hasPluginConf dj "exit_plugins" name = true →
      trySetArgFallback dj name key v = setArg dj "exit_plugins" name key v) ∧
    (hasPluginConf dj "exit_plugins" name = false →
      trySetArgFallback dj name key v = setArg dj "postbuild_plugins" name key v) ∧
    (hasPluginConf dj "exit_plugins" name = false →
      hasPluginConf dj "postbuild_plugins" name = false →
      trySetArgFallback dj name key v =
        .error (.stageNotFound "postbuild_plugins" name)) ∧
    (∀ (q : CommonParams) (b : Bool), q.useAuth = some b →
      useAuthStep q dj =
        trySetArgFallback dj "store_metadata_in_osv3" "use_auth" (.bool b)) := by
  refine ⟨?_, ?_, ?_, ?_⟩
  · intro hexit
    exact trySetArgFallback_exit hexit
  · intro hexit
    exact trySetArgFallback_fallback hexit
  · intro hexit hpost
    exact trySetArgFallback_neither hexit hpost
  · intro q b hq
    unfold useAuthStep
    rw [hq]

/-- C8. The factory maps the deprecated prod-without-koji and
prod-with-secret keys to the canonical prod key and yields the production
variant; every key with no registered variant fails with a generic
`RuntimeError`, not a typed domain error. -/
theorem factory_key_mapping :
    new_by_type PROD_WITHOUT_KOJI_BUILD_TYPE = .ok BuildClass.production ∧
    new_by_type PROD_WITH_SECRET_BUILD_TYPE = .ok BuildClass.production ∧
    new_by_type PROD_BUILD_TYPE = .ok BuildClass.production ∧
    new_by_type SIMPLE_BUILD_TYPE = .ok BuildClass.simple ∧
    (∀ k, ¬ (k = PROD_WITHOUT_KOJI_BUILD_TYPE) → ¬ (k = PROD_WITH_SECRET_BUILD_TYPE) →
      alGet build_classes k = none →
      new_by_type k = .error (.runtimeError ("Unknown build type " ++ k))) := by
  refine ⟨by decide, by decide, by decide, by decide, ?_⟩
  intro k h1 h2 hreg
  unfold new_by_type
  rw [if_neg (fun hh => hh.elim h1 h2)]
  simp only [hreg]

/-- The outer descriptor of the `set_secrets` counterexample: no secrets
array and no legacy `sourceSecret` substructure. -/
def c10Tmpl : OuterTemplate :=
  { metadataName := "t", triggers := none, sourceGitUri := "", sourceGitRef := "",
    sourceSecret := none, strategySecrets := none, outputToName := "",
    resourcesLimits := none }

/-- A secrets mapping holding a non-3-tuple key behind an entry whose
processing fails first. -/
def c10Entries : List (SKey × Option String) :=
  [(SKey.tup ["postbuild_plugins", "pulp_push", "pulp_secret_path"], some "sec"),
   (SKey.nonTuple "bad-key", none)]

/-- C10, counterexample: a secrets mapping that contains a non-3-tuple key
yet whose `set_secrets` call raises `OsbsValidationException`, not
`ValueError` — the earlier entry fails before the offending key is
reached. -/
theorem set_secrets_invalid_key_counterexample :
    (SKey.nonTuple "bad-key", (none : Option String)) ∈ c10Entries ∧
    setSecrets c10Tmpl [] c10Entries =
      .error (.validation "JSON template does not allow secrets") := by
  decide

theorem setSecretsEntry_invalid {t : OuterTemplate} {dj : DockJson} {k : SKey}
    {s : Option String} (hk : ∀ g n a, ¬ (k = SKey.tup [g, n, a])) :
    setSecretsEntry t dj k s = .inr (t, dj, .valueError "need 3-tuple as secrets key") := by
  unfold setSecretsEntry
  match k, hk with
  | .tup [g, n, a], hk => exact absurd rfl (hk g n a)
  | .tup [], hk => rfl
  | .tup [a], hk => rfl
  | .tup [a, b], hk => rfl
  | .tup (a :: b :: c :: d :: es), hk => rfl
  | .nonTuple tag, hk => rfl

/-- C10, amended. When `set_secrets` reaches a key that is not a 3-tuple
before any other failure, it raises a generic `ValueError` (not a domain
error), and the entries iterated before the offending key have already
been applied to the in-place-mutated descriptor state. -/
theorem set_secrets_invalid_key (t t1 : OuterTemplate) (dj dj1 : DockJson)
    (pre rest : List (SKey × Option String)) (k : SKey) (s : Option String)
    (flag : Bool)
    (hk : ∀ g n a, ¬ (k = SKey.tup [g, n, a]))
    (hpre : setSecretsGo t dj false pre = .inl (t1, dj1, flag)) :
    setSecretsGo t dj false (pre ++ (k, s) :: rest) =
      .inr (t1, dj1, .valueError "need 3-tuple as secrets key") ∧
    setSecrets t dj (pre ++ (k, s) :: rest) =
      .error (.valueError "need 3-tuple as secrets key") := by
  have hgo : setSecretsGo t dj false (pre ++ (k, s) :: rest) =
      .inr (t1, dj1, .valueError "need 3-tuple as secrets key") := by
    rw [setSecretsGo_append pre ((k, s) :: rest) hpre]
    unfold setSecretsGo
    rw [setSecretsEntry_invalid hk]
  refine ⟨hgo, ?_⟩
  unfold setSecrets
  rw [hgo]

/-! ### Concrete sample data and witnesses -/

/-- A stage with no argument mapping. -/
def mkP (n : String) : Plugin := ⟨n, none⟩

/-- A pipeline descriptor shaped like the shipped production inner
template: all the stages the renderer addresses, in their groups. -/
def sampleDj : DockJson :=
  [("prebuild_plugins",
    [mkP "check_and_set_rebuild", mkP "bump_release", mkP "distgit_fetch_artefacts",
     mkP "pull_base_image", mkP "add_yum_repo_by_url", mkP "add_labels_in_dockerfile",
     mkP "koji"]),
   ("postbuild_plugins",
    [mkP "import_image", mkP "cp_built_image_to_nfs", mkP "pulp_push"]),
   ("exit_plugins",
    [mkP "store_metadata_in_osv3", mkP "sendmail"])]

/-- An outer descriptor with no `triggers` key, a legacy `sourceSecret`
substructure with no name, and no secrets array. -/
def sampleTplNoTrig : OuterTemplate :=
  { metadataName := "tpl", triggers := none, sourceGitUri := "", sourceGitRef := "",
    sourceSecret := some none, strategySecrets := none, outputToName := "",
    resourcesLimits := none }

/-- An image-change trigger whose `from.name` is a placeholder the
renderer overwrites. -/
def sampleTrigger : Trigger := ⟨"ImageChange", "ImageStreamTag", "placeholder"⟩

/-- The outer descriptor with one declared trigger and an empty secrets
array. -/
def sampleTplTrig : OuterTemplate :=
  { sampleTplNoTrig with triggers := some [sampleTrigger], strategySecrets := some [] }

/-- The outer descriptor whose spec binds `triggers` to an empty list. -/
def sampleTplEmptyTrig : OuterTemplate :=
  { sampleTplNoTrig with triggers := some [] }

/-- Concrete production build parameters, as in the test suite: koji
fully configured, push URL and username supplied, no pulp, nfs or yum
repos. -/
def sampleParams : ProdParams :=
  { name := "component-1", gitUri := "git://example.com/spam.git", gitRef := "abcdef",
    registryUri := "registry.example.com", imageTag := "john-foo/component:20150624",
    openshiftUri := "http://openshift/", yumRepourls := none, useAuth := none,
    triggerImagestreamtag := "fedora:latest",
    sourcesCommand := "make", architecture := "x86_64", vendor := "Foo Vendor",
    buildHost := "build.example.com", authoritativeRegistry := "registry.example.com",
    kojiTarget := some "koji-target", kojiroot := some "http://root/",
    kojihub := some "http://hub/", gitBranch := "master",
    gitPushUrl := some "ssh://git.example.com/git/component.git",
    gitPushUsername := some "example", pulpSecret := none, pdcSecret := none,
    pulpRegistry := none, nfsServerPath := none, nfsDestDir := none,
    imagestreamName := "fedora-resultingimage",
    imagestreamUrl := "registry.example.com/fedora/resultingimage" }

/-- The production render of the trigger-less sample at openshift version
`[0,5,4]`. -/
def resA : RenderResult :=
  match prodRender [0, 5, 4] none sampleParams sampleTplNoTrig sampleDj with
  | .ok r => r
  | .error _ => ⟨sampleTplNoTrig, sampleDj⟩

/-- The production render of the triggered sample at openshift version
`[1,0,6]`. -/
def resB : RenderResult :=
  match prodRender [1, 0, 6] none sampleParams sampleTplTrig sampleDj with
  | .ok r => r
  | .error _ => ⟨sampleTplTrig, sampleDj⟩

/-- The production render of the triggered sample with explicit yum-repo
URLs. -/
def resC : RenderResult :=
  match prodRender [0, 5, 4] none
      { sampleParams with yumRepourls := some ["http://example.com/repo"] }
      sampleTplTrig sampleDj with
  | .ok r => r
  | .error _ => ⟨sampleTplTrig, sampleDj⟩

/-- The simple render of the trigger-less sample at openshift version
`[1,0,6]`. -/
def resS : RenderResult :=
  match simpleRender [1, 0, 6] none sampleParams.toCommonParams sampleTplNoTrig sampleDj with
  | .ok r => r
  | .error _ => ⟨sampleTplNoTrig, sampleDj⟩

/-- Witness for C1: at the sample render the trigger-less template loses
all three gated stages, and the triggered template gets its first
trigger's `from.name` stamped with the configured image-stream-tag. -/
theorem prod_trigger_gating_witness :
    (sampleTplNoTrig.triggers = none ∧
     hasPluginConf resA.pipeline "prebuild_plugins" "check_and_set_rebuild" = false ∧
     hasPluginConf resA.pipeline "prebuild_plugins" "bump_release" = false ∧
     hasPluginConf resA.pipeline "postbuild_plugins" "import_image" = false) ∧
    (sampleTplTrig.triggers = some [sampleTrigger] ∧
     resB.template.triggers =
       some [{ sampleTrigger with
                imageChangeFromName := sampleParams.triggerImagestreamtag }]) := by
  refine ⟨⟨rfl, ?_⟩, ⟨rfl, ?_⟩⟩
  · exact (prod_trigger_gating [0, 5, 4] none sampleParams sampleTplNoTrig sampleDj).1
      rfl resA (by decide)
  · exact ((prod_trigger_gating [1, 0, 6] none sampleParams sampleTplTrig sampleDj).2
      sampleTrigger [] rfl resB (by decide)).2.2.2

/-- Witness for C2: below `[1,0,6]` the rendered production descriptor
has no secrets array; at `[1,0,6]` the rendered simple descriptor has no
`sourceSecret`. -/
theorem version_gated_secret_pruning_witness :
    resA.template.strategySecrets = none ∧ resS.template.sourceSecret = none := by
  constructor
  · exact ((version_gated_secret_pruning [0, 5, 4] none).1 sampleParams sampleTplNoTrig
      sampleDj resA (by decide)).1 (by decide)
  · exact ((version_gated_secret_pruning [1, 0, 6] none).2 sampleParams.toCommonParams
      sampleTplNoTrig sampleDj resS (by decide)).2 (by decide)

/-- Witness for C9: the empty-triggers template makes both renders raise
`IndexError`, and the completed trigger-less render with the rebuild
stage removed certifies the `triggers` key was absent. -/
theorem empty_triggers_index_error_witness :
    (sampleTplEmptyTrig.triggers = some [] ∧
     prodRender [0, 5, 4] none sampleParams sampleTplEmptyTrig sampleDj =
       .error RErr.indexError ∧
     simpleRender [0, 5, 4] none sampleParams.toCommonParams sampleTplEmptyTrig sampleDj =
       .error RErr.indexError) ∧
    (hasPluginConf sampleDj "prebuild_plugins" "check_and_set_rebuild" = true ∧
     hasPluginConf resA.pipeline "prebuild_plugins" "check_and_set_rebuild" = false ∧
     sampleTplNoTrig.triggers = none) := by
  refine ⟨⟨rfl, ?_, ?_⟩, ⟨by decide, by decide, ?_⟩⟩
  · exact (empty_triggers_index_error [0, 5, 4] none sampleParams
      sampleParams.toCommonParams sampleTplEmptyTrig sampleTplEmptyTrig sampleDj
      sampleDj).1 rfl
  · exact (empty_triggers_index_error [0, 5, 4] none sampleParams
      sampleParams.toCommonParams sampleTplEmptyTrig sampleTplEmptyTrig sampleDj
      sampleDj).2.1 rfl
  · exact (empty_triggers_index_error [0, 5, 4] none sampleParams
      sampleParams.toCommonParams sampleTplNoTrig sampleTplEmptyTrig sampleDj
      sampleDj).2.2 resA (by decide) (by decide) (by decide)

/-- Witness for C5: with koji configured and no yum repos the rendered
koji stage carries the three koji arguments; with explicit yum-repo URLs
the koji stage is gone. -/
theorem koji_vs_repo_exclusivity_witness :
    (pluginArg resA.pipeline "prebuild_plugins" "koji" "target" =
       some (.str "koji-target") ∧
     pluginArg resA.pipeline "prebuild_plugins" "koji" "root" =
       some (.str "http://root/") ∧
     pluginArg resA.pipeline "prebuild_plugins" "koji" "hub" =
       some (.str "http://hub/")) ∧
    hasPluginConf resC.pipeline "prebuild_plugins" "koji" = false := by
  constructor
  · exact (koji_vs_repo_exclusivity [0, 5, 4] none sampleParams sampleTplNoTrig sampleDj
      resA (by decide)).2.2 (by decide) (by decide)
  · exact (koji_vs_repo_exclusivity [0, 5, 4] none
      { sampleParams with yumRepourls := some ["http://example.com/repo"] }
      sampleTplTrig sampleDj resC (by decide)).1 (by decide)

/-- Witness for C6: with no pulp registry the rendered pipeline has no
pulp-push stage; with a registry, no secret and no `username` argument,
the pulp step raises the validation error. -/
theorem pulp_push_auth_gate_witness :
    hasPluginConf resA.pipeline "postbuild_plugins" "pulp_push" = false ∧
    pulpStep { sampleParams with pulpRegistry := some "foo" }
        [("postbuild_plugins", [mkP "pulp_push"])] =
      .error (.validation "Pulp registry specified but no auth config") := by
  constructor
  · exact ((pulp_push_auth_gate [0, 5, 4] none sampleParams sampleTplNoTrig
      sampleDj).1 resA (by decide)).2 (by decide)
  · exact (pulp_push_auth_gate [0, 5, 4] none
      { sampleParams with pulpRegistry := some "foo" } sampleTplNoTrig sampleDj).2.1
      [("postbuild_plugins", [mkP "pulp_push"])] (by decide) rfl (by decide) (by decide)

/-- Witness for C4: the triggered sample render sets the descriptor's git
ref to the branch, the stage's `git_ref` to the commit ref, and rewrites
the push URL's authority to `example@git.example.com`. -/
theorem bump_release_configuration_witness :
    resB.template.sourceGitRef = "master" ∧
    pluginArg resB.pipeline "prebuild_plugins" "bump_release" "git_ref" =
      some (.str "abcdef") ∧
    pluginArg resB.pipeline "prebuild_plugins" "bump_release" "push_url" =
      some (.str ("ssh" ++ "://" ++ "example" ++ "@" ++ "git.example.com" ++
        "/git/component.git")) := by
  have h := bump_release_configuration [1, 0, 6] none sampleParams sampleTplTrig
    sampleDj resB (by decide) (by decide)
  refine ⟨h.1, h.2.1, ?_⟩
  exact (h.2.2 "ssh://git.example.com/git/component.git" "example" rfl rfl).2
    "ssh" "git.example.com" "/git/component.git" "git.example.com"
    (by decide) (by decide) (by decide) (by decide)
    (Or.inr ⟨'/', "git/component.git".data, by decide, by decide⟩)
    (Or.inl ⟨rfl, by decide⟩)

/-- The pipeline the secrets-mapping witnesses address. -/
def c3Dj0 : DockJson := [("postbuild_plugins", [mkP "pulp_push"])]

/-- The same pipeline after the pulp secret path is set. -/
def c3Dj1 : DockJson :=
  [("postbuild_plugins",
    [⟨"pulp_push",
      some [("pulp_secret_path", ArgVal.str "/var/run/secrets/atomic-reactor/sec")]⟩])]

/-- The outer descriptor with an empty secrets array. -/
def c3TplMounts : OuterTemplate := { sampleTplNoTrig with strategySecrets := some [] }

/-- The outer descriptor with neither secret substructure. -/
def c3TplBare : OuterTemplate := { sampleTplNoTrig with sourceSecret := none }

/-- Witness for C3: the four behaviours at concrete inputs — mount
appended and stage argument set; legacy name set; validation error; both
substructures deleted when no secret is set. -/
theorem set_secrets_behaviour_witness :
    setSecrets c3TplMounts c3Dj0
        [(SKey.tup ["postbuild_plugins", "pulp_push", "pulp_secret_path"], some "sec")] =
      .ok ({ c3TplMounts with strategySecrets := some [SecretMount.mk "sec" "/var/run/secrets/atomic-reactor/sec"] }, c3Dj1) ∧
    setSecrets sampleTplNoTrig c3Dj0
        [(SKey.tup ["postbuild_plugins", "pulp_push", "pulp_secret_path"], some "sec")] =
      .ok ({ sampleTplNoTrig with sourceSecret := some (some "sec") }, c3Dj0) ∧
    setSecrets c3TplBare c3Dj0
        [(SKey.tup ["postbuild_plugins", "pulp_push", "pulp_secret_path"], some "sec")] =
      .error (.validation "JSON template does not allow secrets") ∧
    setSecrets sampleTplNoTrig c3Dj0 [(SKey.tup ["a", "b", "c"], none)] =
      .ok ({ sampleTplNoTrig with sourceSecret := none, strategySecrets := none },
           c3Dj0) := by
  refine ⟨?_, ?_, ?_, ?_⟩
  · exact (set_secrets_behaviour.1 c3TplMounts c3Dj0 c3Dj1 [] "postbuild_plugins"
      "pulp_push" "pulp_secret_path" "sec" rfl (by decide)).1
  · exact set_secrets_behaviour.2.1 sampleTplNoTrig c3Dj0 none "postbuild_plugins"
      "pulp_push" "pulp_secret_path" "sec" rfl rfl
  · exact set_secrets_behaviour.2.2.1 c3TplBare c3Dj0 "postbuild_plugins"
      "pulp_push" "pulp_secret_path" "sec" rfl rfl
  · refine set_secrets_behaviour.2.2.2 sampleTplNoTrig c3Dj0
      [(SKey.tup ["a", "b", "c"], none)] ?_
    intro e he
    simp only [List.mem_singleton] at he
    subst he
    exact ⟨⟨"a", "b", "c", rfl⟩, rfl⟩

/-- A pipeline whose metadata stage sits only in the post-build group. -/
def c7DjPost : DockJson := [("postbuild_plugins", [mkP "store_metadata_in_osv3"])]

/-- A pipeline with no metadata stage in either group. -/
def c7DjNeither : DockJson := [("prebuild_plugins", [mkP "koji"])]

/-- Witness for C7: the three fallback behaviours at concrete pipelines,
and the use-auth step routed through the fallback. -/
theorem metadata_stage_fallback_witness :
    trySetArgFallback sampleDj "store_metadata_in_osv3" "url" (.str "http://openshift/") =
      setArg sampleDj "exit_plugins" "store_metadata_in_osv3" "url"
        (.str "http://openshift/") ∧
    trySetArgFallback c7DjPost "store_metadata_in_osv3" "url" (.str "http://openshift/") =
      setArg c7DjPost "postbuild_plugins" "store_metadata_in_osv3" "url"
        (.str "http://openshift/") ∧
    trySetArgFallback c7DjNeither "store_metadata_in_osv3" "url"
        (.str "http://openshift/") =
      .error (.stageNotFound "postbuild_plugins" "store_metadata_in_osv3") ∧
    useAuthStep { sampleParams.toCommonParams with useAuth := some true } sampleDj =
      trySetArgFallback sampleDj "store_metadata_in_osv3" "use_auth" (.bool true) := by
  refine ⟨?_, ?_, ?_, ?_⟩
  · exact (metadata_stage_fallback sampleDj "store_metadata_in_osv3" "url"
      (.str "http://openshift/")).1 (by decide)
  · exact (metadata_stage_fallback c7DjPost "store_metadata_in_osv3" "url"
      (.str "http://openshift/")).2.1 (by decide)
  · exact (metadata_stage_fallback c7DjNeither "store_metadata_in_osv3" "url"
      (.str "http://openshift/")).2.2.1 (by decide) (by decide)
  · exact (metadata_stage_fallback sampleDj "store_metadata_in_osv3" "use_auth"
      (.bool true)).2.2.2 { sampleParams.toCommonParams with useAuth := some true }
      true rfl

/-- Witness for C8: an unregistered key fails with the generic
`RuntimeError`. -/
theorem factory_key_mapping_witness :
    new_by_type "bogus" = .error (.runtimeError ("Unknown build type " ++ "bogus")) :=
  factory_key_mapping.2.2.2.2 "bogus" (by decide) (by decide) (by decide)

/-- The invalid-key template variant whose first entry succeeds. -/
def c10TmplB : OuterTemplate := { sampleTplNoTrig with strategySecrets := some [] }

/-- The entries applied before the invalid key. -/
def c10Pre : List (SKey × Option String) :=
  [(SKey.tup ["postbuild_plugins", "pulp_push", "pulp_secret_path"], some "sec")]

/-- The pipeline the invalid-key witness starts from. -/
def c10Dj0 : DockJson := [("postbuild_plugins", [mkP "pulp_push"])]

/-- The outer descriptor state after the first entry is applied. -/
def c10T1 : OuterTemplate :=
  { c10TmplB with strategySecrets := some [SecretMount.mk "sec" "/var/run/secrets/atomic-reactor/sec"] }

/-- The pipeline state after the first entry is applied. -/
def c10Dj1 : DockJson :=
  [("postbuild_plugins",
    [⟨"pulp_push",
      some [("pulp_secret_path", ArgVal.str "/var/run/secrets/atomic-reactor/sec")]⟩])]

/-- Witness for the amended C10: with a successful entry before the
invalid key, the loop raises `ValueError` carrying the already-mutated
state. -/
theorem set_secrets_invalid_key_witness :
    setSecretsGo c10TmplB c10Dj0 false (c10Pre ++ (SKey.nonTuple "bad-key", none) :: []) =
      .inr (c10T1, c10Dj1, .valueError "need 3-tuple as secrets key") ∧
    setSecrets c10TmplB c10Dj0 (c10Pre ++ (SKey.nonTuple "bad-key", none) :: []) =
      .error (.valueError "need 3-tuple as secrets key") :=
  set_secrets_invalid_key c10TmplB c10T1 c10Dj0 c10Dj1 c10Pre []
    (SKey.nonTuple "bad-key") none true
    (fun g n a h => SKey.noConfusion h) (by decide)

end Osbs
